import Mathlib

/-!
ESD-LAB: keypad / LCD expression calculator

Shallow embedding of the single-digit calculator program
(`LCD_Init`, `LCD_Command`, `LCD_Data`, `LCD_String`, `LCD_Clear`, `LCD_SetCursor`,
`Read_Keypad`, `Get_Expression`, `BCD_To_Decimal`, `Display_Result`) and of the
BCD counter step `update_bcd_counter` with `extract_bcd_digit`, of the ring
counter program (shift step of `main`, `update_leds`, `is_button_pressed`), and of
the two 4-bit LCD programs lcd.c (`lcd_write`, `port_write`, the loops of `main`)
and q29.c (`lcd_init`, `lcd_cmd`, `lcd_data`, `lcd_send_nibble`).

* Bytes and characters are natural numbers (their C character codes);
  `unsigned char` stores are reduced modulo 256.
* `int` values are integers; every sum formed by the program is far below 2^31.
* The LCD driver is modelled by the list of register accesses and delays it
  performs, in program order (`Ev`).  `lcdWrites` reads such a list back as the
  bytes the display controller latches on each falling edge of Enable.
* `Get_Expression` polls `Read_Keypad` in an endless loop; the loop is modelled
  over the list of values successive `Read_Keypad` calls return, and reports
  whether the `break` was reached.
* `Read_Keypad` is modelled over the list of values that successive reads of the
  keypad port return; it reports the key returned, or that the samples ran out
  while it was still waiting, together with the port accesses it made.
-/

namespace ESDLab

/-! ## LCD driver -/

/-- One hardware access of the LCD driver, or one call of `delay_ms`. -/
inductive Ev where
  /-- The store `LCD_DATA_PORT->FIOPIN = v`. -/
  | dataPort (v : Nat)
  /-- The store `LCD_CTRL_PORT->FIOSET = m`. -/
  | ctrlSet (m : Nat)
  /-- The store `LCD_CTRL_PORT->FIOCLR = m`. -/
  | ctrlClr (m : Nat)
  /-- The call `delay_ms(ms)`. -/
  | delay (ms : Nat)
  deriving DecidableEq

/-- Register-Select mask, `#define RS (1 << 16)`. -/
def RS : Nat := 1 <<< 16
/-- Read/Write mask, `#define RW (1 << 17)`. -/
def RW : Nat := 1 <<< 17
/-- Enable mask, `#define EN (1 << 18)`. -/
def EN : Nat := 1 <<< 18

/-- The function `delay_ms`: a calibrated busy loop, recorded as one event. -/
def delay_ms (ms : Nat) : List Ev := [Ev.delay ms]

/-- The function `LCD_Command(unsigned char cmd)`. -/
def LCD_Command (cmd : Nat) : List Ev :=
  [Ev.dataPort cmd, Ev.ctrlClr (RS ||| RW), Ev.ctrlSet EN] ++ delay_ms 1 ++
  [Ev.ctrlClr EN] ++ delay_ms 1

/-- The function `LCD_Data(unsigned char data)`. -/
def LCD_Data (data : Nat) : List Ev :=
  [Ev.dataPort data, Ev.ctrlSet RS, Ev.ctrlClr RW, Ev.ctrlSet EN] ++ delay_ms 1 ++
  [Ev.ctrlClr EN] ++ delay_ms 1

/-- The function `LCD_String(char *str)`: the argument lists the bytes at `str`;
the loop `while(*str)` stops at the first NUL byte, and each character is passed
to `LCD_Data` as an `unsigned char`. -/
def LCD_String : List Nat → List Ev
  | [] => []
  | c :: cs => if c = 0 then [] else LCD_Data (c % 256) ++ LCD_String cs

/-- The function `LCD_Clear`. -/
def LCD_Clear : List Ev := LCD_Command 0x01 ++ delay_ms 2

/-- The function `LCD_SetCursor(unsigned char row, unsigned char col)`; the
address is an `unsigned char`, so the sum is reduced modulo 256. -/
def LCD_SetCursor (row col : Nat) : List Ev :=
  let address := if row = 0 then (0x80 + col) % 256 else (0xC0 + col) % 256
  LCD_Command address

/-- Character codes of a string literal. -/
def cstr (s : String) : List Nat := s.toList.map Char.toNat

/-! ### What the display controller sees -/

/-- A byte latched by the display controller. -/
inductive LcdWrite where
  /-- A write to the command register (Register-Select low). -/
  | cmd (b : Nat)
  /-- A write to the data register (Register-Select high). -/
  | data (b : Nat)
  deriving DecidableEq

/-- Levels of the LCD lines: data lines D0-D7 (P0.0-P0.7) and the three control
lines P1.16-P1.18. -/
structure LcdBus where
  data : Nat
  rs : Bool
  rw : Bool
  en : Bool
  deriving DecidableEq

/-- Effect of one driver event on the LCD lines, with the byte latched if the
event is a falling edge of Enable while Read/Write is low. -/
def LcdBus.step (p : LcdBus) : Ev → LcdBus × List LcdWrite
  | Ev.dataPort v => ({ p with data := v % 256 }, [])
  | Ev.ctrlSet m =>
      ({ p with rs := p.rs || m.testBit 16, rw := p.rw || m.testBit 17,
                en := p.en || m.testBit 18 }, [])
  | Ev.ctrlClr m =>
      ({ p with rs := p.rs && !m.testBit 16, rw := p.rw && !m.testBit 17,
                en := p.en && !m.testBit 18 },
       if p.en && m.testBit 18 && !p.rw then
         [if p.rs then LcdWrite.data p.data else LcdWrite.cmd p.data]
       else [])
  | Ev.delay _ => (p, [])

/-- The bytes latched by the display controller over a list of driver events. -/
def lcdWrites (p : LcdBus) : List Ev → List LcdWrite
  | [] => []
  | e :: es => (p.step e).2 ++ lcdWrites (p.step e).1 es

/-- The lines at rest: everything low. -/
def LcdBus.idle : LcdBus := ⟨0, false, false, false⟩

/-! ## Calculator -/

/-- The global variables `first_operand`, `second_operand`, `operator`, `result`. -/
structure Globals where
  first_operand : Nat
  second_operand : Nat
  operator : Nat
  result : Int
  deriving DecidableEq

/-- The globals together with the local variable `state` of `Get_Expression`. -/
structure Engine extends Globals where
  state : Nat
  deriving DecidableEq

/-- Result of running (part of) `Get_Expression`: the variables, the LCD driver
events emitted, and whether `break` left the input loop. -/
structure Outcome where
  eng : Engine
  out : List Ev
  exited : Bool
  deriving DecidableEq

/-- The function `BCD_To_Decimal(unsigned char bcd)`. -/
def BCD_To_Decimal (bcd : Nat) : Int := (bcd : Int)

/-- The function `Decimal_To_BCD(int decimal)`. -/
def Decimal_To_BCD (decimal : Int) : Nat :=
  if 0 ≤ decimal ∧ decimal ≤ 9 then decimal.toNat else 0xFF

/-- One iteration of the `while(1)` loop of `Get_Expression`, after
`key = Read_Keypad()` returned `key`.
Character codes: 48..57 are the digits, 43 is +, 45 is -, 61 is =, 42 is *. -/
def Get_Expression_key (e : Engine) (key : Nat) : Outcome :=
  if key ≠ 0 then
    if 48 ≤ key ∧ key ≤ 57 then
      if e.state = 0 then
        ⟨{ e with first_operand := (key - 48) % 256, state := 1 }, LCD_Data key, false⟩
      else if e.state = 2 then
        ⟨{ e with second_operand := (key - 48) % 256, state := 3 }, LCD_Data key, false⟩
      else ⟨e, [], false⟩
    else if key = 43 ∨ key = 45 then
      if e.state = 1 then
        ⟨{ e with operator := key, state := 2 }, LCD_Data key, false⟩
      else ⟨e, [], false⟩
    else if key = 61 then
      if e.state = 3 then
        let result : Int :=
          if e.operator = 43 then
            BCD_To_Decimal e.first_operand + BCD_To_Decimal e.second_operand
          else if e.operator = 45 then
            BCD_To_Decimal e.first_operand - BCD_To_Decimal e.second_operand
          else e.result
        if 0 ≤ result ∧ result ≤ 9 then
          ⟨{ e with result := result }, LCD_Data 61, true⟩
        else
          ⟨{ e with result := result, first_operand := 0, second_operand := 0,
                    operator := 0, state := 0 },
           LCD_Data 61 ++ LCD_SetCursor 1 0 ++ LCD_String (cstr "Error: Result>9") ++
           delay_ms 2000 ++ LCD_SetCursor 1 0 ++ LCD_String (cstr "A op B =       ") ++
           LCD_SetCursor 1 8,
           false⟩
      else ⟨e, [], false⟩
    else if key = 42 then
      ⟨{ e with first_operand := 0, second_operand := 0, operator := 0, state := 0 },
       LCD_SetCursor 1 0 ++ LCD_String (cstr "                ") ++
       LCD_SetCursor 1 0 ++ LCD_String (cstr "A op B =") ++ LCD_SetCursor 1 8,
       false⟩
    else ⟨e, [], false⟩
  else ⟨e, [], false⟩

/-- The `while(1)` loop of `Get_Expression` over the values returned by
successive `Read_Keypad` calls; it stops consuming keys at `break`. -/
def Get_Expression_loop (e : Engine) : List Nat → Outcome
  | [] => ⟨e, [], false⟩
  | key :: keys =>
      let r := Get_Expression_key e key
      if r.exited then r
      else
        let r2 := Get_Expression_loop r.eng keys
        ⟨r2.eng, r.out ++ r2.out, r2.exited⟩

/-- The function `Get_Expression`, started with globals `g`. -/
def Get_Expression (g : Globals) (keys : List Nat) : Outcome :=
  let r := Get_Expression_loop
    { first_operand := 0, second_operand := 0, operator := 0, result := g.result,
      state := 0 } keys
  ⟨r.eng, LCD_SetCursor 1 8 ++ r.out, r.exited⟩

/-- The conversion `%d` of `sprintf` for a non-negative argument. -/
def fmt_d (n : Nat) : List Nat := (Nat.toDigits 10 n).map Char.toNat

/-- The call `sprintf(buffer, "%d %c %d = ", first_operand, operator, second_operand)`:
the bytes stored in `buffer` before the terminating NUL (at most 12, within the
20 bytes of `buffer`). -/
def sprintf_expression (g : Globals) : List Nat :=
  fmt_d g.first_operand ++ [32, g.operator % 256, 32] ++ fmt_d g.second_operand ++
  [32, 61, 32]

/-- Conversion of an `int` argument to the `unsigned char` parameter of `LCD_Data`. -/
def toUChar (v : Int) : Nat := (v % 256).toNat

/-- Negation of a 32-bit `int`, wrapping at the one value without a negative. -/
def negInt (v : Int) : Int := (-v + 2147483648) % 4294967296 - 2147483648

/-- The function `Display_Result(int result)`, with globals `g`. -/
def Display_Result (g : Globals) (result : Int) : List Ev :=
  let part1 : Int × List Ev :=
    if result < 0 then
      let result1 := negInt result
      (result1,
       LCD_Data 45 ++
       (if result1 ≤ 9 then LCD_Data (toUChar (result1 + 48)) else LCD_String (cstr "ERR")))
    else if result ≤ 9 then (result, LCD_Data (toUChar (result + 48)))
    else (result, LCD_String (cstr "ERR"))
  let result2 := part1.1
  LCD_SetCursor 1 10 ++ part1.2 ++
  LCD_SetCursor 0 0 ++ LCD_String (cstr "                ") ++ LCD_SetCursor 0 0 ++
  LCD_String (sprintf_expression g) ++
  (if 0 ≤ result2 ∧ result2 ≤ 9 then LCD_Data (toUChar (result2 + 48))
   else if result2 < 0 ∧ -9 ≤ result2 then
     LCD_Data 45 ++ LCD_Data (toUChar (negInt result2 + 48))
   else LCD_String (cstr "ERR"))

/-- Globals at program start. -/
def Globals.init : Globals := ⟨0, 0, 0, 0⟩

/-! ## Keypad scanner -/

/-- Row line mask, `#define ROW1 (1 << 19)`. -/
def ROW1 : Nat := 1 <<< 19
/-- Row line mask, `#define ROW2 (1 << 20)`. -/
def ROW2 : Nat := 1 <<< 20
/-- Row line mask, `#define ROW3 (1 << 21)`. -/
def ROW3 : Nat := 1 <<< 21
/-- Row line mask, `#define ROW4 (1 << 22)`. -/
def ROW4 : Nat := 1 <<< 22
/-- Column line mask, `#define COL1 (1 << 23)`. -/
def COL1 : Nat := 1 <<< 23
/-- Column line mask, `#define COL2 (1 << 24)`. -/
def COL2 : Nat := 1 <<< 24
/-- Column line mask, `#define COL3 (1 << 25)`. -/
def COL3 : Nat := 1 <<< 25

/-- The table `const char keypad[4][3]` (character codes of 1 2 3 / 4 5 6 /
7 8 9 / * 0 #). -/
def keypad : List (List Nat) :=
  [[49, 50, 51], [52, 53, 54], [55, 56, 57], [42, 48, 35]]

/-- The table lookup `keypad[row][col]`. -/
def keypad_at (row col : Nat) : Nat := (keypad.getD row []).getD col 0

/-- One access of the keypad port made by `Read_Keypad`, or a delay. -/
inductive KeyEv where
  /-- The store `KEYPAD_PORT->FIOSET = m`. -/
  | rowSet (m : Nat)
  /-- The store `KEYPAD_PORT->FIOCLR = m`. -/
  | rowClr (m : Nat)
  /-- The call `delay_ms(ms)`. -/
  | delay (ms : Nat)
  /-- A read of `KEYPAD_PORT->FIOPIN` that returned `v`, made in scan iteration
  `row` and tested against the mask of column `col`. -/
  | read (row col v : Nat)
  deriving DecidableEq

/-- How far a scan got. -/
inductive ScanStatus where
  /-- The function returned this key (0 when no key was found). -/
  | returned (key : Nat)
  /-- The given samples ran out before the function returned. -/
  | pending
  /-- No column read low in this row; the scan goes on with the next row. -/
  | noKey
  deriving DecidableEq

/-- Result of (part of) a call of `Read_Keypad`: status, port accesses made, and
the samples not yet consumed. -/
structure KeyScan where
  status : ScanStatus
  trace : List KeyEv
  rest : List Nat
  deriving DecidableEq

/-- The loop `while(!(KEYPAD_PORT->FIOPIN & mask));` that waits for key release;
each iteration reads the port anew.  The flag tells whether the loop ended. -/
def Read_Keypad_release (mask row col : Nat) : List Nat → Bool × List KeyEv × List Nat
  | [] => (false, [], [])
  | v :: vs =>
      if v &&& mask = 0 then
        ((Read_Keypad_release mask row col vs).1,
         KeyEv.read row col v :: (Read_Keypad_release mask row col vs).2.1,
         (Read_Keypad_release mask row col vs).2.2)
      else (true, [KeyEv.read row col v], vs)

/-- The body of one `if(!(KEYPAD_PORT->FIOPIN & mask))` block once the column
read low: `key = keypad[row][col]`, wait for release, `return key`. -/
def Read_Keypad_hit (mask row col : Nat) (samples : List Nat) : KeyScan :=
  let w := Read_Keypad_release mask row col samples
  ⟨if w.1 then ScanStatus.returned (keypad_at row col) else ScanStatus.pending, w.2.1, w.2.2⟩

/-- The three column checks of one scan iteration of `Read_Keypad`; every check
reads `KEYPAD_PORT->FIOPIN` anew. -/
def Read_Keypad_cols (row : Nat) (samples : List Nat) : KeyScan :=
  match samples with
  | [] => ⟨ScanStatus.pending, [], []⟩
  | v1 :: s1 =>
    if v1 &&& COL1 = 0 then
      let h := Read_Keypad_hit COL1 row 0 s1
      ⟨h.status, KeyEv.read row 0 v1 :: h.trace, h.rest⟩
    else
      match s1 with
      | [] => ⟨ScanStatus.pending, [KeyEv.read row 0 v1], []⟩
      | v2 :: s2 =>
        if v2 &&& COL2 = 0 then
          let h := Read_Keypad_hit COL2 row 1 s2
          ⟨h.status, KeyEv.read row 0 v1 :: KeyEv.read row 1 v2 :: h.trace, h.rest⟩
        else
          match s2 with
          | [] => ⟨ScanStatus.pending, [KeyEv.read row 0 v1, KeyEv.read row 1 v2], []⟩
          | v3 :: s3 =>
            if v3 &&& COL3 = 0 then
              let h := Read_Keypad_hit COL3 row 2 s3
              ⟨h.status,
               KeyEv.read row 0 v1 :: KeyEv.read row 1 v2 :: KeyEv.read row 2 v3 :: h.trace,
               h.rest⟩
            else
              ⟨ScanStatus.noKey,
               [KeyEv.read row 0 v1, KeyEv.read row 1 v2, KeyEv.read row 2 v3], s3⟩

/-- The `switch(row)` of `Read_Keypad` that drives the current row low. -/
def Read_Keypad_select (row : Nat) : List KeyEv :=
  match row with
  | 0 => [KeyEv.rowClr ROW1]
  | 1 => [KeyEv.rowClr ROW2]
  | 2 => [KeyEv.rowClr ROW3]
  | 3 => [KeyEv.rowClr ROW4]
  | _ => []

/-- The loop `for(row = ...; row < 4; row++)` of `Read_Keypad` with `n` iterations
left, followed by the final `return 0`. -/
def Read_Keypad_rows : Nat → Nat → List Nat → KeyScan
  | 0, _, samples => ⟨ScanStatus.returned 0, [], samples⟩
  | n + 1, row, samples =>
      let pre := [KeyEv.rowSet (ROW1 ||| ROW2 ||| ROW3 ||| ROW4)] ++ Read_Keypad_select row ++
        [KeyEv.delay 10]
      let r := Read_Keypad_cols row samples
      match r.status with
      | ScanStatus.noKey =>
          let r2 := Read_Keypad_rows n (row + 1) r.rest
          ⟨r2.status, pre ++ r.trace ++ r2.trace, r2.rest⟩
      | st => ⟨st, pre ++ r.trace, r.rest⟩

/-- The function `Read_Keypad`, over the values that successive reads of
`KEYPAD_PORT->FIOPIN` return. -/
def Read_Keypad (samples : List Nat) : KeyScan := Read_Keypad_rows 4 0 samples

/-- Levels of the four row output lines P2.19-P2.22. -/
structure RowLines where
  row1 : Bool
  row2 : Bool
  row3 : Bool
  row4 : Bool
  deriving DecidableEq

/-- Effect of one keypad port access on the row lines. -/
def RowLines.step (l : RowLines) : KeyEv → RowLines
  | KeyEv.rowSet m =>
      ⟨l.row1 || m.testBit 19, l.row2 || m.testBit 20, l.row3 || m.testBit 21,
       l.row4 || m.testBit 22⟩
  | KeyEv.rowClr m =>
      ⟨l.row1 && !m.testBit 19, l.row2 && !m.testBit 20, l.row3 && !m.testBit 21,
       l.row4 && !m.testBit 22⟩
  | KeyEv.delay _ => l
  | KeyEv.read _ _ _ => l

/-- For every port read of a trace, in order: the scan iteration it belongs to
and the levels of the row lines at that moment. -/
def readLevels (l : RowLines) : List KeyEv → List (Nat × RowLines)
  | [] => []
  | KeyEv.read row col v :: es => (row, l) :: readLevels (l.step (KeyEv.read row col v)) es
  | KeyEv.rowSet m :: es => readLevels (l.step (KeyEv.rowSet m)) es
  | KeyEv.rowClr m :: es => readLevels (l.step (KeyEv.rowClr m)) es
  | KeyEv.delay ms :: es => readLevels (l.step (KeyEv.delay ms)) es

/-- Row lines with only the line of scan iteration `row` low. -/
def onlyRowLow (row : Nat) : RowLines := ⟨row != 0, row != 1, row != 2, row != 3⟩

/-- The column mask of column index 0, 1 or 2. -/
def colMask (col : Nat) : Nat :=
  match col with
  | 0 => COL1
  | 1 => COL2
  | _ => COL3

/-- A sample in which all three column lines read high (no key seen). -/
def allHigh (v : Nat) : Prop := v &&& COL1 ≠ 0 ∧ v &&& COL2 ≠ 0 ∧ v &&& COL3 ≠ 0

instance (v : Nat) : Decidable (allHigh v) := by unfold allHigh; infer_instance

/-! ## LCD initialisation and line levels -/

/-- The direction registers `FIODIR` of the LCD data port and control port. -/
structure LcdDirs where
  data_dir : Nat
  ctrl_dir : Nat
  deriving DecidableEq

/-- The function `LCD_Init`: the two `FIODIR |= ...` updates, and the driver
events that follow them. -/
def LCD_Init (d : LcdDirs) : LcdDirs × List Ev :=
  (⟨d.data_dir ||| 0xFF, d.ctrl_dir ||| (RS ||| RW ||| EN)⟩,
   delay_ms 20 ++
   LCD_Command 0x38 ++ LCD_Command 0x0C ++ LCD_Command 0x06 ++ LCD_Command 0x01 ++
   delay_ms 2)

/-- The levels of the LCD lines after each event of a list, in order. -/
def busStates (p : LcdBus) : List Ev → List LcdBus
  | [] => []
  | e :: es => (p.step e).1 :: busStates (p.step e).1 es

/-- Whether every store that drops Enable (a `FIOCLR` whose mask contains bit 18)
is immediately followed by a call of `delay_ms` with a positive argument. -/
def settleAfterLatch : List Ev → Bool
  | [] => true
  | Ev.ctrlClr m :: es =>
      (if m.testBit 18 then
        (match es with
         | Ev.delay ms :: _ => decide (0 < ms)
         | _ => false)
       else true) && settleAfterLatch es
  | Ev.dataPort _ :: es => settleAfterLatch es
  | Ev.ctrlSet _ :: es => settleAfterLatch es
  | Ev.delay _ :: es => settleAfterLatch es

/-! ## BCD counter (bcd_counter_7seg.c) -/

/-- The function `extract_bcd_digit(unsigned int bcd_number, unsigned char position)`:
`shift_amount` is an `unsigned char`, position 0 is the thousands digit and
position 3 the units digit. -/
def extract_bcd_digit (bcd_number position : Nat) : Nat :=
  let shift_amount : Nat := ((((3 : Int) - (position : Int)) * 4) % 256).toNat
  ((bcd_number >>> shift_amount) &&& 0x0F) % 256

/-- The function `update_bcd_counter`: the new value of the 32-bit global
`bcd_counter`, given `counting_direction` and the old value.  The digit variables
are `unsigned char`; a decrement is only executed on a non-zero digit. -/
def update_bcd_counter (counting_direction bcd_counter : Nat) : Nat :=
  if counting_direction = 1 then
    let units := (bcd_counter &&& 0x000F) % 256
    let tens := ((bcd_counter >>> 4) &&& 0x000F) % 256
    let hundreds := ((bcd_counter >>> 8) &&& 0x000F) % 256
    let thousands := ((bcd_counter >>> 12) &&& 0x000F) % 256
    let units := (units + 1) % 256
    let d : Nat × Nat × Nat × Nat :=
      if units > 9 then
        let tens := (tens + 1) % 256
        if tens > 9 then
          let hundreds := (hundreds + 1) % 256
          if hundreds > 9 then
            let thousands := (thousands + 1) % 256
            if thousands > 9 then (0, 0, 0, 0) else (thousands, 0, 0, 0)
          else (thousands, hundreds, 0, 0)
        else (thousands, hundreds, tens, 0)
      else (thousands, hundreds, tens, units)
    ((d.1 <<< 12) ||| (d.2.1 <<< 8) ||| (d.2.2.1 <<< 4) ||| d.2.2.2) % 4294967296
  else
    let units := (bcd_counter &&& 0x000F) % 256
    let tens := ((bcd_counter >>> 4) &&& 0x000F) % 256
    let hundreds := ((bcd_counter >>> 8) &&& 0x000F) % 256
    let thousands := ((bcd_counter >>> 12) &&& 0x000F) % 256
    let d : Nat × Nat × Nat × Nat :=
      if units = 0 then
        if tens = 0 then
          if hundreds = 0 then
            if thousands = 0 then (9, 9, 9, 9) else (thousands - 1, 9, 9, 9)
          else (thousands, hundreds - 1, 9, 9)
        else (thousands, hundreds, tens - 1, 9)
      else (thousands, hundreds, tens, units - 1)
    ((d.1 <<< 12) ||| (d.2.1 <<< 8) ||| (d.2.2.1 <<< 4) ||| d.2.2.2) % 4294967296

/-- A 4-digit packed BCD value, as described at the declaration of `bcd_counter`:
a 16-bit value whose four digits, read with `extract_bcd_digit`, are all 0..9. -/
def bcdValid (x : Nat) : Prop :=
  x < 0x10000 ∧ extract_bcd_digit x 0 ≤ 9 ∧ extract_bcd_digit x 1 ≤ 9 ∧
  extract_bcd_digit x 2 ≤ 9 ∧ extract_bcd_digit x 3 ≤ 9

instance (x : Nat) : Decidable (bcdValid x) := by unfold bcdValid; infer_instance

/-- The decimal number a packed BCD value stands for ("0x1234 means 1234"). -/
def bcdValue (x : Nat) : Nat :=
  1000 * extract_bcd_digit x 0 + 100 * extract_bcd_digit x 1 +
  10 * extract_bcd_digit x 2 + extract_bcd_digit x 3

/-- The 16-bit value with the given thousands, hundreds, tens and units nibbles. -/
def bcdPack (th h t u : Nat) : Nat := th * 4096 + h * 256 + t * 16 + u

/-- The invariant of the calculator variables: operands are single digits, the
operator is +, - or 0, and in states 2 and 3 an operator has been stored. -/
def engineInv (e : Engine) : Prop :=
  e.first_operand ≤ 9 ∧ e.second_operand ≤ 9 ∧
  (e.operator = 43 ∨ e.operator = 45 ∨ e.operator = 0) ∧
  (e.state = 2 ∨ e.state = 3 → e.operator = 43 ∨ e.operator = 45)

/-- The values `Read_Keypad` can return: 0, a digit, * or #. -/
def keypadRange (k : Nat) : Prop := k = 0 ∨ (48 ≤ k ∧ k ≤ 57) ∨ k = 42 ∨ k = 35

instance (k : Nat) : Decidable (keypadRange k) := by unfold keypadRange; infer_instance

/-! ## Ring counter (LED ring counter program) -/

/-- A store to a GPIO port register, or a delay call, of the ring counter program
and of the two 4-bit LCD programs. -/
inductive PortEv where
  /-- The store `FIOPIN = v`. -/
  | pin (v : Nat)
  /-- The store `FIOSET = m`. -/
  | set (m : Nat)
  /-- The store `FIOCLR = m`. -/
  | clr (m : Nat)
  /-- A delay call with the given argument. -/
  | delay (r : Nat)
  deriving DecidableEq

/-- LED mask, `#define LED_MASK 0x00000FF0`. -/
def LED_MASK : Nat := 0x00000FF0

/-- The shift step of `main`, executed on each detected button press:
`if(ring_counter == 0x80) ring_counter = 0x01; else ring_counter = ring_counter << 1;`
with `ring_counter` an `unsigned char`. -/
def main_ring_step (ring_counter : Nat) : Nat :=
  if ring_counter = 0x80 then 0x01 else (ring_counter <<< 1) % 256

/-- The value of `ring_counter` after the given number of button presses, starting
from its initial value 0x01. -/
def ring_counter_after : Nat → Nat
  | 0 => 0x01
  | n + 1 => main_ring_step (ring_counter_after n)

/-- The function `update_leds`. -/
def update_leds (ring_counter : Nat) : List PortEv :=
  [PortEv.clr LED_MASK, PortEv.set ((ring_counter <<< 4) &&& LED_MASK)]

/-- The positions, among bits 0..31, of the bits set in a value. -/
def bitsSet (v : Nat) : List Nat := (List.range 32).filter (fun i => v.testBit i)

/-- A read of the switch port or a delay made by `is_button_pressed`. -/
inductive SwEv where
  /-- A read of `SWITCH_PORT->FIOPIN` that returned `v`. -/
  | read (v : Nat)
  /-- The call `delay_ms(ms)`. -/
  | delay (ms : Nat)
  deriving DecidableEq

/-- The expression `(SWITCH_PORT->FIOPIN >> 12) & 0x01`, stored in an
`unsigned char`. -/
def switch_level (pin : Nat) : Nat := ((pin >>> 12) &&& 0x01) % 256

/-- Result of `is_button_pressed`: the value returned, the new value of the global
`prev_switch_state`, and the port reads and delays made. -/
structure ButtonResult where
  pressed : Nat
  prev_switch_state : Nat
  trace : List SwEv
  deriving DecidableEq

/-- The function `is_button_pressed`; `s1` is the value of the first read of the
switch port and `s2` the value the second read returns if it is made. -/
def is_button_pressed (prev_switch_state s1 s2 : Nat) : ButtonResult :=
  let current_state := switch_level s1
  if prev_switch_state = 1 ∧ current_state = 0 then
    let current_state2 := switch_level s2
    ⟨if current_state2 ≠ 0 then 0 else 1, current_state2,
     [SwEv.read s1, SwEv.delay 20, SwEv.read s2]⟩
  else ⟨0, current_state, [SwEv.read s1]⟩

/-! ## 4-bit LCD programs (lcd.c and q29.c) -/

/-- Register-Select mask P0.27: `0x08000000` in lcd.c, `(1 << 27)` in q29.c. -/
def RS_CTRL : Nat := 0x08000000
/-- Enable mask P0.28: `0x10000000` in lcd.c, `(1 << 28)` in q29.c. -/
def EN_CTRL : Nat := 0x10000000
/-- Data line mask P0.23-P0.26: `0x07800000` in lcd.c, `(0xF << 23)` in q29.c. -/
def DT_CTRL : Nat := 0x07800000

/-- The function `delay_lcd` (both files): a counting loop, recorded as one event. -/
def delay_lcd (r : Nat) : List PortEv := [PortEv.delay r]

/-- The array `msg` of lcd.c, `{"WELCOME "}`, with its terminating NUL. -/
def msg_lcd : List Nat := cstr "WELCOME " ++ [0]

/-- The array `msg` of q29.c, `"WELCOME"`, with its terminating NUL. -/
def msg_q29 : List Nat := cstr "WELCOME" ++ [0]

/-- The array `init_command` of lcd.c. -/
def init_command : List Nat := [0x30, 0x30, 0x30, 0x20, 0x28, 0x0c, 0x06, 0x01, 0x80]

/-- The function `port_write` of lcd.c, for the current `flag1` and `temp2`. -/
def port_write (flag1 temp2 : Nat) : List PortEv :=
  [PortEv.pin temp2, if flag1 = 0 then PortEv.clr RS_CTRL else PortEv.set RS_CTRL,
   PortEv.set EN_CTRL] ++ delay_lcd 25 ++ [PortEv.clr EN_CTRL] ++ delay_lcd 5000

/-- The function `lcd_write` of lcd.c, for the current `flag1` and `temp1`
(`temp1`, `temp2` are 32-bit `unsigned long`). -/
def lcd_write (flag1 temp1 : Nat) : List PortEv :=
  let flag2 : Nat := if flag1 = 1 then 0 else if temp1 = 0x30 ∨ temp1 = 0x20 then 1 else 0
  let temp2 := ((temp1 &&& 0xf0) <<< 19) % 4294967296
  port_write flag1 temp2 ++
  (if flag2 = 0 then
    let temp2 := ((temp1 &&& 0x0f) <<< 23) % 4294967296
    port_write flag1 temp2
   else [])

/-- The loop `for (i=0; i<9;i++) { temp1 = init_command[i]; lcd_write(); }` of
`main` in lcd.c, run with `flag1 = 0`. -/
def lcd_main_init : List PortEv := init_command.flatMap (fun temp1 => lcd_write 0 temp1)

/-- The loop `while (msg[i++] != '\0') { temp1 = msg[i]; lcd_write(); }` of `main`
in lcd.c, run with `flag1 = 1`; the argument is the array from index `i` on.  The
test reads the head and `i` is incremented before the body reads `msg[i]`. -/
def lcd_main_send : List Nat → List PortEv
  | [] => []
  | c :: tl => if c ≠ 0 then lcd_write 1 (tl.headD 0) ++ lcd_main_send tl else []

/-- The function `lcd_send_nibble` of q29.c, for the current `flag1`. -/
def lcd_send_nibble (flag1 nib : Nat) : List PortEv :=
  let temp2 := ((nib &&& 0x0F) <<< 23) % 4294967296
  [PortEv.clr DT_CTRL, PortEv.set temp2,
   if flag1 = 0 then PortEv.clr RS_CTRL else PortEv.set RS_CTRL,
   PortEv.set EN_CTRL] ++ delay_lcd 200 ++ [PortEv.clr EN_CTRL] ++ delay_lcd 200

/-- The function `lcd_cmd` of q29.c. -/
def lcd_cmd (cmd : Nat) : List PortEv :=
  lcd_send_nibble 0 (cmd >>> 4) ++ lcd_send_nibble 0 (cmd &&& 0x0F)

/-- The function `lcd_data` of q29.c. -/
def lcd_data (data : Nat) : List PortEv :=
  lcd_send_nibble 1 (data >>> 4) ++ lcd_send_nibble 1 (data &&& 0x0F)

/-- The function `lcd_init` of q29.c. -/
def lcd_init : List PortEv :=
  delay_lcd 500000 ++
  lcd_send_nibble 0 0x03 ++ delay_lcd 50000 ++
  lcd_send_nibble 0 0x03 ++ delay_lcd 50000 ++
  lcd_send_nibble 0 0x03 ++ delay_lcd 50000 ++
  lcd_send_nibble 0 0x02 ++ delay_lcd 50000 ++
  lcd_cmd 0x28 ++ lcd_cmd 0x0C ++ lcd_cmd 0x06 ++ lcd_cmd 0x01 ++
  delay_lcd 50000

/-- The loop `for (i = 0; msg[i] != '\0'; i++) lcd_data(msg[i]);` of `main` in
q29.c; the argument is the array from index `i` on. -/
def q29_main_send : List Nat → List PortEv
  | [] => []
  | c :: tl => if c ≠ 0 then lcd_data c ++ q29_main_send tl else []

/-- Levels of the LCD lines of the 4-bit programs: the data lines P0.23-P0.26 as a
4-bit value, Register-Select P0.27 and Enable P0.28. -/
structure NibBus where
  data : Nat
  rs : Bool
  en : Bool
  deriving DecidableEq

/-- Effect of one port store on the lines, with the (Register-Select, 4-bit value)
pair latched if the store is a falling edge of Enable. -/
def NibBus.step (p : NibBus) : PortEv → NibBus × List (Bool × Nat)
  | PortEv.pin v =>
      (⟨(v >>> 23) % 16, v.testBit 27, v.testBit 28⟩,
       if p.en && !v.testBit 28 then [(p.rs, p.data)] else [])
  | PortEv.set m =>
      (⟨p.data ||| ((m >>> 23) % 16), p.rs || m.testBit 27, p.en || m.testBit 28⟩, [])
  | PortEv.clr m =>
      (⟨p.data &&& (15 ^^^ ((m >>> 23) % 16)), p.rs && !m.testBit 27,
        p.en && !m.testBit 28⟩,
       if p.en && m.testBit 28 then [(p.rs, p.data)] else [])
  | PortEv.delay _ => (p, [])

/-- The (Register-Select, 4-bit value) pairs latched over a list of port events. -/
def nibWrites (p : NibBus) : List PortEv → List (Bool × Nat)
  | [] => []
  | e :: es => (p.step e).2 ++ nibWrites (p.step e).1 es

/-- The lines after reset: everything low. -/
def NibBus.idle : NibBus := ⟨0, false, false⟩

/-! ## Driver lemmas -/

theorem cstr_error :
    cstr "Error: Result>9" = [69, 114, 114, 111, 114, 58, 32, 82, 101, 115, 117, 108, 116, 62, 57] := by
  decide

theorem cstr_prompt_padded :
    cstr "A op B =       " = [65, 32, 111, 112, 32, 66, 32, 61, 32, 32, 32, 32, 32, 32, 32] := by
  decide

theorem cstr_prompt : cstr "A op B =" = [65, 32, 111, 112, 32, 66, 32, 61] := by decide

theorem cstr_blank :
    cstr "                " = [32, 32, 32, 32, 32, 32, 32, 32, 32, 32, 32, 32, 32, 32, 32, 32] := by
  decide

theorem cstr_err : cstr "ERR" = [69, 82, 82] := by decide

theorem lcdWrites_nil (p : LcdBus) : lcdWrites p [] = [] := rfl

theorem lcdWrites_Command_append (p : LcdBus) (c : Nat) (t : List Ev) :
    lcdWrites p (LCD_Command c ++ t)
      = LcdWrite.cmd (c % 256) :: lcdWrites ⟨c % 256, false, false, false⟩ t := by
  have h16 : Nat.testBit (RS ||| RW) 16 = true := by decide
  have h17 : Nat.testBit (RS ||| RW) 17 = true := by decide
  have h18 : Nat.testBit (RS ||| RW) 18 = false := by decide
  have e16 : Nat.testBit EN 16 = false := by decide
  have e17 : Nat.testBit EN 17 = false := by decide
  have e18 : Nat.testBit EN 18 = true := by decide
  simp [LCD_Command, delay_ms, lcdWrites, LcdBus.step, h16, h17, h18, e16, e17, e18]

theorem lcdWrites_Data_append (p : LcdBus) (d : Nat) (t : List Ev) :
    lcdWrites p (LCD_Data d ++ t)
      = LcdWrite.data (d % 256) :: lcdWrites ⟨d % 256, true, false, false⟩ t := by
  have r16 : Nat.testBit RS 16 = true := by decide
  have r17 : Nat.testBit RS 17 = false := by decide
  have r18 : Nat.testBit RS 18 = false := by decide
  have w16 : Nat.testBit RW 16 = false := by decide
  have w17 : Nat.testBit RW 17 = true := by decide
  have w18 : Nat.testBit RW 18 = false := by decide
  have e16 : Nat.testBit EN 16 = false := by decide
  have e17 : Nat.testBit EN 17 = false := by decide
  have e18 : Nat.testBit EN 18 = true := by decide
  simp [LCD_Data, delay_ms, lcdWrites, LcdBus.step, r16, r17, r18, w16, w17, w18, e16, e17, e18]

theorem lcdWrites_Command (p : LcdBus) (c : Nat) :
    lcdWrites p (LCD_Command c) = [LcdWrite.cmd (c % 256)] := by
  have h := lcdWrites_Command_append p c []
  simpa [lcdWrites_nil] using h

theorem lcdWrites_Data (p : LcdBus) (d : Nat) :
    lcdWrites p (LCD_Data d) = [LcdWrite.data (d % 256)] := by
  have h := lcdWrites_Data_append p d []
  simpa [lcdWrites_nil] using h

theorem lcdWrites_delay_append (p : LcdBus) (n : Nat) (t : List Ev) :
    lcdWrites p (delay_ms n ++ t) = lcdWrites p t := by
  simp [delay_ms, lcdWrites, LcdBus.step]

theorem lcdWrites_delay (p : LcdBus) (n : Nat) : lcdWrites p (delay_ms n) = [] := by
  simp [delay_ms, lcdWrites, LcdBus.step]

theorem LCD_String_nil : LCD_String [] = [] := rfl

theorem LCD_String_cons (c : Nat) (cs : List Nat) (hc : c ≠ 0) :
    LCD_String (c :: cs) = LCD_Data (c % 256) ++ LCD_String cs := by
  simp [LCD_String, hc]

/-! ## Transitions of the input loop -/

theorem key_first (e : Engine) (k : Nat) (hk : 48 ≤ k ∧ k ≤ 57) (hs : e.state = 0) :
    Get_Expression_key e k
      = ⟨{ e with first_operand := k - 48, state := 1 }, LCD_Data k, false⟩ := by
  have h0 : k ≠ 0 := by omega
  have hm : (k - 48) % 256 = k - 48 := by omega
  simp [Get_Expression_key, h0, hk, hs, hm]

theorem key_operator (e : Engine) (k : Nat) (hk : k = 43 ∨ k = 45) (hs : e.state = 1) :
    Get_Expression_key e k = ⟨{ e with operator := k, state := 2 }, LCD_Data k, false⟩ := by
  rcases hk with rfl | rfl <;> simp [Get_Expression_key, hs]

theorem key_second (e : Engine) (k : Nat) (hk : 48 ≤ k ∧ k ≤ 57) (hs : e.state = 2) :
    Get_Expression_key e k
      = ⟨{ e with second_operand := k - 48, state := 3 }, LCD_Data k, false⟩ := by
  have h0 : k ≠ 0 := by omega
  have hm : (k - 48) % 256 = k - 48 := by omega
  simp [Get_Expression_key, h0, hk, hs, hm]

theorem key_clear (e : Engine) :
    Get_Expression_key e 42
      = ⟨{ e with first_operand := 0, second_operand := 0, operator := 0, state := 0 },
         LCD_SetCursor 1 0 ++ LCD_String (cstr "                ") ++
         LCD_SetCursor 1 0 ++ LCD_String (cstr "A op B =") ++ LCD_SetCursor 1 8,
         false⟩ := by
  simp [Get_Expression_key]

theorem key_equals (e : Engine) (hs : e.state = 3) (r : Int)
    (hr : (e.operator = 43 ∧
            r = BCD_To_Decimal e.first_operand + BCD_To_Decimal e.second_operand)
        ∨ (e.operator = 45 ∧
            r = BCD_To_Decimal e.first_operand - BCD_To_Decimal e.second_operand)) :
    Get_Expression_key e 61
      = if 0 ≤ r ∧ r ≤ 9 then ⟨{ e with result := r }, LCD_Data 61, true⟩
        else
          ⟨{ e with result := r, first_operand := 0, second_operand := 0,
                    operator := 0, state := 0 },
           LCD_Data 61 ++ LCD_SetCursor 1 0 ++ LCD_String (cstr "Error: Result>9") ++
           delay_ms 2000 ++ LCD_SetCursor 1 0 ++ LCD_String (cstr "A op B =       ") ++
           LCD_SetCursor 1 8, false⟩ := by
  have hres : (if e.operator = 43 then
        BCD_To_Decimal e.first_operand + BCD_To_Decimal e.second_operand
      else if e.operator = 45 then
        BCD_To_Decimal e.first_operand - BCD_To_Decimal e.second_operand
      else e.result) = r := by
    rcases hr with ⟨h1, h2⟩ | ⟨h1, h2⟩ <;> simp [h1, h2]
  have k0 : (61 : Nat) ≠ 0 := by decide
  have k1 : ¬ (48 ≤ 61 ∧ 61 ≤ 57) := by decide
  have k2 : ¬ ((61 : Nat) = 43 ∨ (61 : Nat) = 45) := by decide
  unfold Get_Expression_key
  rw [if_pos k0, if_neg k1, if_neg k2, if_pos rfl, if_pos hs]
  simp only [hres]

theorem loop_nil (e : Engine) : Get_Expression_loop e [] = ⟨e, [], false⟩ := rfl

theorem loop_cons (e : Engine) (k : Nat) (ks : List Nat) :
    Get_Expression_loop e (k :: ks)
      = if (Get_Expression_key e k).exited then Get_Expression_key e k
        else ⟨(Get_Expression_loop (Get_Expression_key e k).eng ks).eng,
              (Get_Expression_key e k).out ++
                (Get_Expression_loop (Get_Expression_key e k).eng ks).out,
              (Get_Expression_loop (Get_Expression_key e k).eng ks).exited⟩ := rfl

/-- Outcome of the key sequence digit, operator, digit, = from state 0 with
cleared operands, in terms of the value `r` computed for the operator. -/
theorem loop_expression (res : Int) (a b op : Nat) (ha : a ≤ 9) (hb : b ≤ 9)
    (r : Int) (hr : (op = 43 ∧ r = (a : Int) + b) ∨ (op = 45 ∧ r = (a : Int) - b)) :
    Get_Expression_loop ⟨⟨0, 0, 0, res⟩, 0⟩ [a + 48, op, b + 48, 61]
      = if 0 ≤ r ∧ r ≤ 9 then
          ⟨⟨⟨a, b, op, r⟩, 3⟩,
           LCD_Data (a + 48) ++ LCD_Data op ++ LCD_Data (b + 48) ++ LCD_Data 61, true⟩
        else
          ⟨⟨⟨0, 0, 0, r⟩, 0⟩,
           LCD_Data (a + 48) ++ LCD_Data op ++ LCD_Data (b + 48) ++ LCD_Data 61 ++
           LCD_SetCursor 1 0 ++ LCD_String (cstr "Error: Result>9") ++
           delay_ms 2000 ++ LCD_SetCursor 1 0 ++ LCD_String (cstr "A op B =       ") ++
           LCD_SetCursor 1 8, false⟩ := by
  have hop : op = 43 ∨ op = 45 := by rcases hr with h | h <;> simp [h.1]
  have hka : 48 ≤ a + 48 ∧ a + 48 ≤ 57 := by omega
  have hkb : 48 ≤ b + 48 ∧ b + 48 ≤ 57 := by omega
  rw [loop_cons, key_first _ _ hka rfl]
  simp only [Bool.false_eq_true, if_false]
  rw [loop_cons, key_operator _ _ hop rfl]
  simp only [Bool.false_eq_true, if_false]
  rw [loop_cons, key_second _ _ hkb rfl]
  simp only [Bool.false_eq_true, if_false]
  have hr2 : (op = 43 ∧ r = BCD_To_Decimal a + BCD_To_Decimal b)
      ∨ (op = 45 ∧ r = BCD_To_Decimal a - BCD_To_Decimal b) := by
    simpa [BCD_To_Decimal] using hr
  rw [loop_cons, key_equals _ rfl r (by simpa using hr2)]
  by_cases h : 0 ≤ r ∧ r ≤ 9
  · simp [h]
  · simp [h, loop_nil]

/-- Outcome of `Get_Expression` on the keys digit, operator, digit, =. -/
theorem Get_Expression_expression (g : Globals) (a b op : Nat) (ha : a ≤ 9) (hb : b ≤ 9)
    (r : Int) (hr : (op = 43 ∧ r = (a : Int) + b) ∨ (op = 45 ∧ r = (a : Int) - b)) :
    Get_Expression g [a + 48, op, b + 48, 61]
      = if 0 ≤ r ∧ r ≤ 9 then
          ⟨⟨⟨a, b, op, r⟩, 3⟩,
           LCD_SetCursor 1 8 ++
           (LCD_Data (a + 48) ++ LCD_Data op ++ LCD_Data (b + 48) ++ LCD_Data 61), true⟩
        else
          ⟨⟨⟨0, 0, 0, r⟩, 0⟩,
           LCD_SetCursor 1 8 ++
           (LCD_Data (a + 48) ++ LCD_Data op ++ LCD_Data (b + 48) ++ LCD_Data 61 ++
            LCD_SetCursor 1 0 ++ LCD_String (cstr "Error: Result>9") ++
            delay_ms 2000 ++ LCD_SetCursor 1 0 ++ LCD_String (cstr "A op B =       ") ++
            LCD_SetCursor 1 8), false⟩ := by
  unfold Get_Expression
  rw [loop_expression g.result a b op ha hb r hr]
  by_cases h : 0 ≤ r ∧ r ≤ 9
  · simp [h]
  · simp [h]

theorem loop_append (e : Engine) (ks ks2 : List Nat)
    (h : (Get_Expression_loop e ks).exited = false) :
    Get_Expression_loop e (ks ++ ks2)
      = ⟨(Get_Expression_loop (Get_Expression_loop e ks).eng ks2).eng,
         (Get_Expression_loop e ks).out ++
           (Get_Expression_loop (Get_Expression_loop e ks).eng ks2).out,
         (Get_Expression_loop (Get_Expression_loop e ks).eng ks2).exited⟩ := by
  induction ks generalizing e with
  | nil => simp [loop_nil]
  | cons k ks ih =>
    rw [loop_cons] at h
    rw [List.cons_append, loop_cons, loop_cons]
    by_cases hk : (Get_Expression_key e k).exited = true
    · rw [if_pos hk] at h
      rw [hk] at h
      cases h
    · rw [if_neg hk] at h
      rw [if_neg hk, if_neg hk]
      simp only at h
      rw [ih _ h]
      simp [List.append_assoc]

/-! ## Rendering lemmas -/

theorem fmt_d_digit (a : Nat) (ha : a ≤ 9) : fmt_d a = [a + 48] := by
  interval_cases a <;> decide

/-- Driver calls made by `Display_Result` for a result in 0..9 and digit operands. -/
theorem Display_Result_digit (a b op n : Nat) (ha : a ≤ 9) (hb : b ≤ 9)
    (hop : op = 43 ∨ op = 45) (hn : n ≤ 9) :
    Display_Result ⟨a, b, op, (n : Int)⟩ (n : Int)
      = LCD_SetCursor 1 10 ++ LCD_Data (n + 48) ++
        LCD_SetCursor 0 0 ++ LCD_String (cstr "                ") ++ LCD_SetCursor 0 0 ++
        LCD_String [a + 48, 32, op, 32, b + 48, 32, 61, 32] ++ LCD_Data (n + 48) := by
  have hop256 : op % 256 = op := by rcases hop with h | h <;> simp [h]
  have h1 : ¬ ((n : Int) < 0) := by omega
  have h2 : (n : Int) ≤ 9 := by omega
  have h3 : 0 ≤ (n : Int) ∧ (n : Int) ≤ 9 := by omega
  have hu : toUChar ((n : Int) + 48) = n + 48 := by
    unfold toUChar
    omega
  unfold Display_Result
  simp only [if_neg h1, if_pos h2, if_pos h3, hu, sprintf_expression, fmt_d_digit a ha,
    fmt_d_digit b hb, hop256, List.cons_append, List.nil_append, List.append_assoc]

/-- Bytes received by the display controller from `Display_Result` for a result
in 0..9 and digit operands. -/
theorem Display_Result_digit_writes (a b op n : Nat) (ha : a ≤ 9) (hb : b ≤ 9)
    (hop : op = 43 ∨ op = 45) (hn : n ≤ 9) (p : LcdBus) :
    lcdWrites p (Display_Result ⟨a, b, op, (n : Int)⟩ (n : Int))
      = [LcdWrite.cmd 0xCA, LcdWrite.data (n + 48), LcdWrite.cmd 0x80] ++
        List.replicate 16 (LcdWrite.data 32) ++ [LcdWrite.cmd 0x80] ++
        [a + 48, 32, op, 32, b + 48, 32, 61, 32, n + 48].map LcdWrite.data := by
  have hop256 : op % 256 = op := by rcases hop with h | h <;> simp [h]
  have hop0 : op ≠ 0 := by rcases hop with h | h <;> simp [h]
  have ha256 : (a + 48) % 256 = a + 48 := by omega
  have hb256 : (b + 48) % 256 = b + 48 := by omega
  have hn256 : (n + 48) % 256 = n + 48 := by omega
  rw [Display_Result_digit a b op n ha hb hop hn]
  simp [LCD_SetCursor, lcdWrites_Command_append, lcdWrites_Data_append, lcdWrites_Data,
    LCD_String_cons, LCD_String_nil, cstr_blank, hop256, hop0, ha256, hb256, hn256,
    List.replicate]

/-- C1 (amended): for all digits a, b in 0..9 and op in + or - whose value r
(a+b for +, a-b for -) satisfies 0 <= r <= 9, feeding the keys a, op, b, = to
`Get_Expression` (from any globals) exits the input loop with result = r, operands
and operator stored, and the display controller receives only the cursor command
0xC8 and the four echoed characters (no error text).  The negative values r < 0
are not accepted: for them the loop does not exit. -/
theorem C1_success_path (g : Globals) (a b op : Nat) (r : Int) (ha : a ≤ 9) (hb : b ≤ 9)
    (hr : (op = 43 ∧ r = (a : Int) + b) ∨ (op = 45 ∧ r = (a : Int) - b)) :
    (0 ≤ r ∧ r ≤ 9 →
      (Get_Expression g [a + 48, op, b + 48, 61]).exited = true ∧
      (Get_Expression g [a + 48, op, b + 48, 61]).eng = ⟨⟨a, b, op, r⟩, 3⟩ ∧
      (Get_Expression g [a + 48, op, b + 48, 61]).out
        = LCD_SetCursor 1 8 ++
          (LCD_Data (a + 48) ++ LCD_Data op ++ LCD_Data (b + 48) ++ LCD_Data 61) ∧
      ∀ p : LcdBus, lcdWrites p (Get_Expression g [a + 48, op, b + 48, 61]).out
        = [LcdWrite.cmd 0xC8, LcdWrite.data (a + 48), LcdWrite.data op,
           LcdWrite.data (b + 48), LcdWrite.data 61]) ∧
    (r < 0 →
      (Get_Expression g [a + 48, op, b + 48, 61]).exited = false ∧
      (Get_Expression g [a + 48, op, b + 48, 61]).eng.result = r) := by
  have hop : op = 43 ∨ op = 45 := by rcases hr with h | h <;> simp [h.1]
  have hop256 : op % 256 = op := by rcases hop with h | h <;> simp [h]
  have ha256 : (a + 48) % 256 = a + 48 := by omega
  have hb256 : (b + 48) % 256 = b + 48 := by omega
  rw [Get_Expression_expression g a b op ha hb r hr]
  constructor
  · intro h
    rw [if_pos h]
    refine ⟨rfl, rfl, rfl, ?_⟩
    intro p
    simp [LCD_SetCursor, lcdWrites_Command_append, lcdWrites_Data_append, lcdWrites_Data,
      hop256, ha256, hb256]
  · intro h
    have h2 : ¬ (0 ≤ r ∧ r ≤ 9) := by omega
    rw [if_neg h2]
    exact ⟨rfl, rfl⟩

/-- C1 witness: the keys 5, +, 3, = exit the loop with result 8. -/
theorem C1_success_path_witness :
    (5 ≤ 9 ∧ 3 ≤ 9 ∧ ((43 = 43 ∧ (8 : Int) = (5 : Nat) + (3 : Nat)) ∨
        (43 = 45 ∧ (8 : Int) = (5 : Nat) - (3 : Nat)))) ∧
    (Get_Expression Globals.init [53, 43, 51, 61]).exited = true ∧
    (Get_Expression Globals.init [53, 43, 51, 61]).eng = ⟨⟨5, 3, 43, 8⟩, 3⟩ :=
  ⟨⟨by decide, by decide, Or.inl ⟨rfl, by decide⟩⟩,
   ((C1_success_path Globals.init 5 3 43 8 (by decide) (by decide)
      (Or.inl ⟨rfl, by decide⟩)).1 ⟨by decide, by decide⟩).1,
   ((C1_success_path Globals.init 5 3 43 8 (by decide) (by decide)
      (Or.inl ⟨rfl, by decide⟩)).1 ⟨by decide, by decide⟩).2.1⟩

/-- C1 counterexample: 2 - 3 = -1 has absolute value at most 9, yet on the keys
2, -, 3, = the input loop does not exit, the operands are cleared, and the error
text is sent to the display. -/
theorem C1_counterexample :
    (-9 ≤ (2 : Int) - 3 ∧ (2 : Int) - 3 ≤ 9) ∧
    (Get_Expression Globals.init [50, 45, 51, 61]).exited = false ∧
    (Get_Expression Globals.init [50, 45, 51, 61]).eng = ⟨⟨0, 0, 0, -1⟩, 0⟩ ∧
    lcdWrites LcdBus.idle (Get_Expression Globals.init [50, 45, 51, 61]).out
      = [LcdWrite.cmd 0xC8, LcdWrite.data 50, LcdWrite.data 45, LcdWrite.data 51,
         LcdWrite.data 61, LcdWrite.cmd 0xC0] ++
        (cstr "Error: Result>9").map LcdWrite.data ++ [LcdWrite.cmd 0xC0] ++
        (cstr "A op B =       ").map LcdWrite.data ++ [LcdWrite.cmd 0xC8] := by
  refine ⟨by decide, by decide, by decide, by decide⟩

/-- C2: for all digits a, b in 0..9 and op in + or - whose value r (a+b for +,
a-b for -) has absolute value above 9, feeding a, op, b, = to `Get_Expression`
takes the error path: after the echo of the four keys it sets the cursor to row 1
column 0 (command 0xC0), writes "Error: Result>9", waits, sets the cursor to row 1
column 0 again, rewrites the prompt "A op B =" (followed by seven blanks), moves
the cursor to row 1 column 8 (command 0xC8), and the loop continues in state 0
with first_operand = second_operand = 0 and operator = 0. -/
theorem C2_error_path (g : Globals) (a b op : Nat) (r : Int) (ha : a ≤ 9) (hb : b ≤ 9)
    (hr : (op = 43 ∧ r = (a : Int) + b) ∨ (op = 45 ∧ r = (a : Int) - b))
    (h9 : r < -9 ∨ 9 < r) :
    (Get_Expression g [a + 48, op, b + 48, 61]).exited = false ∧
    (Get_Expression g [a + 48, op, b + 48, 61]).eng = ⟨⟨0, 0, 0, r⟩, 0⟩ ∧
    (Get_Expression g [a + 48, op, b + 48, 61]).out
      = LCD_SetCursor 1 8 ++
        (LCD_Data (a + 48) ++ LCD_Data op ++ LCD_Data (b + 48) ++ LCD_Data 61 ++
         LCD_SetCursor 1 0 ++ LCD_String (cstr "Error: Result>9") ++
         delay_ms 2000 ++ LCD_SetCursor 1 0 ++ LCD_String (cstr "A op B =       ") ++
         LCD_SetCursor 1 8) ∧
    ∀ p : LcdBus, lcdWrites p (Get_Expression g [a + 48, op, b + 48, 61]).out
      = [LcdWrite.cmd 0xC8, LcdWrite.data (a + 48), LcdWrite.data op,
         LcdWrite.data (b + 48), LcdWrite.data 61, LcdWrite.cmd 0xC0] ++
        (cstr "Error: Result>9").map LcdWrite.data ++ [LcdWrite.cmd 0xC0] ++
        (cstr "A op B =").map LcdWrite.data ++ List.replicate 7 (LcdWrite.data 32) ++
        [LcdWrite.cmd 0xC8] := by
  have hop : op = 43 ∨ op = 45 := by rcases hr with h | h <;> simp [h.1]
  have hop256 : op % 256 = op := by rcases hop with h | h <;> simp [h]
  have ha256 : (a + 48) % 256 = a + 48 := by omega
  have hb256 : (b + 48) % 256 = b + 48 := by omega
  have h2 : ¬ (0 ≤ r ∧ r ≤ 9) := by omega
  rw [Get_Expression_expression g a b op ha hb r hr, if_neg h2]
  refine ⟨rfl, rfl, rfl, ?_⟩
  intro p
  simp [LCD_SetCursor, lcdWrites_Command_append, lcdWrites_Data_append, lcdWrites_Command,
    lcdWrites_delay_append, LCD_String_cons, LCD_String_nil, cstr_error, cstr_prompt_padded,
    cstr_prompt, hop256, ha256, hb256, List.replicate]

/-- C2 witness: 9 + 5 = 14 takes the error path. -/
theorem C2_error_path_witness :
    (9 ≤ 9 ∧ 5 ≤ 9 ∧ ((14 : Int) < -9 ∨ 9 < (14 : Int))) ∧
    (Get_Expression Globals.init [57, 43, 53, 61]).exited = false ∧
    (Get_Expression Globals.init [57, 43, 53, 61]).eng = ⟨⟨0, 0, 0, 14⟩, 0⟩ :=
  ⟨⟨by decide, by decide, Or.inr (by decide)⟩,
   (C2_error_path Globals.init 9 5 43 14 (by decide) (by decide)
      (Or.inl ⟨rfl, by decide⟩) (Or.inr (by decide))).1,
   (C2_error_path Globals.init 9 5 43 14 (by decide) (by decide)
      (Or.inl ⟨rfl, by decide⟩) (Or.inr (by decide))).2.1⟩

/-- C3: from state 0 with cleared operands, for all digit keys d1, d2 in 0..9
(codes 48..57) and every op in + or -, handling d1, op, d2 moves the state
0 -> 1 -> 2 -> 3 without leaving the loop, leaves first_operand = d1 - 48,
operator = op, second_operand = d2 - 48 and the result untouched, and the display
controller receives exactly three data writes: d1, op, d2 in that order. -/
theorem C3_entry_transitions (res : Int) (d1 op d2 : Nat)
    (h1 : 48 ≤ d1 ∧ d1 ≤ 57) (hop : op = 43 ∨ op = 45) (h2 : 48 ≤ d2 ∧ d2 ≤ 57) :
    (Get_Expression_key ⟨⟨0, 0, 0, res⟩, 0⟩ d1).eng = ⟨⟨d1 - 48, 0, 0, res⟩, 1⟩ ∧
    (Get_Expression_key ⟨⟨d1 - 48, 0, 0, res⟩, 1⟩ op).eng = ⟨⟨d1 - 48, 0, op, res⟩, 2⟩ ∧
    (Get_Expression_key ⟨⟨d1 - 48, 0, op, res⟩, 2⟩ d2).eng
      = ⟨⟨d1 - 48, d2 - 48, op, res⟩, 3⟩ ∧
    Get_Expression_loop ⟨⟨0, 0, 0, res⟩, 0⟩ [d1, op, d2]
      = ⟨⟨⟨d1 - 48, d2 - 48, op, res⟩, 3⟩, LCD_Data d1 ++ LCD_Data op ++ LCD_Data d2, false⟩ ∧
    ∀ p : LcdBus, lcdWrites p (Get_Expression_loop ⟨⟨0, 0, 0, res⟩, 0⟩ [d1, op, d2]).out
      = [LcdWrite.data d1, LcdWrite.data op, LcdWrite.data d2] := by
  have hop256 : op % 256 = op := by rcases hop with h | h <;> simp [h]
  have h1m : d1 % 256 = d1 := by omega
  have h2m : d2 % 256 = d2 := by omega
  have hl : Get_Expression_loop ⟨⟨0, 0, 0, res⟩, 0⟩ [d1, op, d2]
      = ⟨⟨⟨d1 - 48, d2 - 48, op, res⟩, 3⟩,
         LCD_Data d1 ++ LCD_Data op ++ LCD_Data d2, false⟩ := by
    rw [loop_cons, key_first _ _ h1 rfl]
    simp only [Bool.false_eq_true, if_false]
    rw [loop_cons, key_operator _ _ hop rfl]
    simp only [Bool.false_eq_true, if_false]
    rw [loop_cons, key_second _ _ h2 rfl]
    simp [loop_nil]
  refine ⟨?_, ?_, ?_, hl, ?_⟩
  · rw [key_first _ _ h1 rfl]
  · rw [key_operator _ _ hop rfl]
  · rw [key_second _ _ h2 rfl]
  · intro p
    rw [hl]
    simp [lcdWrites_Data_append, lcdWrites_Data, hop256, h1m, h2m]

/-- C3 witness: the keys 5, +, 3. -/
theorem C3_entry_transitions_witness :
    ((48 ≤ 53 ∧ 53 ≤ 57) ∧ (43 = 43 ∨ 43 = 45) ∧ (48 ≤ 51 ∧ 51 ≤ 57)) ∧
    Get_Expression_loop ⟨⟨0, 0, 0, 0⟩, 0⟩ [53, 43, 51]
      = ⟨⟨⟨5, 3, 43, 0⟩, 3⟩, LCD_Data 53 ++ LCD_Data 43 ++ LCD_Data 51, false⟩ :=
  ⟨⟨by decide, by decide, by decide⟩,
   (C3_entry_transitions 0 53 43 51 (by decide) (by decide) (by decide)).2.2.2.1⟩

/-- C4: in every engine state (any state value, operands, operator and result),
handling the key * yields state 0 with first_operand = second_operand = 0 and
operator = 0, does not leave the loop, and handling * a second time gives the
same engine state as handling it once. -/
theorem C4_clear_idempotent (e : Engine) :
    (Get_Expression_key e 42).eng = ⟨⟨0, 0, 0, e.result⟩, 0⟩ ∧
    (Get_Expression_key e 42).exited = false ∧
    (Get_Expression_key (Get_Expression_key e 42).eng 42).eng
      = (Get_Expression_key e 42).eng := by
  refine ⟨?_, ?_, ?_⟩
  · rw [key_clear]
  · rw [key_clear]
  · rw [key_clear, key_clear]

/-- C5: a key the transition table does not accept in the current state is a
no-op.  For an operator, = or # in state 0, a digit, = or # in state 1, an
operator, = or # in state 2, a digit, an operator or # in state 3, and for the
no-key value 0 in any state, the loop iteration leaves state, operands,
operator and result unchanged, emits no driver event, and does not exit. -/
theorem C5_ignored_keys (e : Engine) (key : Nat)
    (h : key = 0 ∨
      (e.state = 0 ∧ (key = 43 ∨ key = 45 ∨ key = 61 ∨ key = 35)) ∨
      (e.state = 1 ∧ ((48 ≤ key ∧ key ≤ 57) ∨ key = 61 ∨ key = 35)) ∨
      (e.state = 2 ∧ (key = 43 ∨ key = 45 ∨ key = 61 ∨ key = 35)) ∨
      (e.state = 3 ∧ ((48 ≤ key ∧ key ≤ 57) ∨ key = 43 ∨ key = 45 ∨ key = 35))) :
    Get_Expression_key e key = ⟨e, [], false⟩ ∧
    ∀ p : LcdBus, lcdWrites p (Get_Expression_key e key).out = [] := by
  have hk : Get_Expression_key e key = ⟨e, [], false⟩ := by
    unfold Get_Expression_key
    rcases h with h | ⟨hs, h⟩ | ⟨hs, h⟩ | ⟨hs, h⟩ | ⟨hs, h⟩
    · simp [h]
    · rcases h with h | h | h | h <;> simp [h, hs]
    · rcases h with h | h | h
      · simp [h, hs]
      · simp [h, hs]
      · simp [h, hs]
    · rcases h with h | h | h | h <;> simp [h, hs]
    · rcases h with h | h | h | h
      · simp [h, hs]
      · simp [h, hs]
      · simp [h, hs]
      · simp [h, hs]
  refine ⟨hk, ?_⟩
  intro p
  rw [hk]
  rfl

/-- C5 witness: the operator + in state 0 is ignored. -/
theorem C5_ignored_keys_witness :
    Get_Expression_key ⟨⟨0, 0, 0, 0⟩, 0⟩ 43 = ⟨⟨⟨0, 0, 0, 0⟩, 0⟩, [], false⟩ :=
  (C5_ignored_keys ⟨⟨0, 0, 0, 0⟩, 0⟩ 43 (Or.inr (Or.inl ⟨rfl, Or.inl rfl⟩))).1

/-- C6: for every column col in 0..15, `LCD_SetCursor(0, col)` issues exactly one
command byte, 0x80 + col, and `LCD_SetCursor(1, col)` exactly one command byte,
0xC0 + col, with no wrap-around of the 8-bit sum; in particular
`LCD_SetCursor(0, 5)` issues 0x85 and `LCD_SetCursor(1, 3)` issues 0xC3. -/
theorem C6_cursor_address (col : Nat) (hcol : col ≤ 15) :
    LCD_SetCursor 0 col = LCD_Command (0x80 + col) ∧
    LCD_SetCursor 1 col = LCD_Command (0xC0 + col) ∧
    0xC0 + col < 256 ∧
    (∀ p : LcdBus, lcdWrites p (LCD_SetCursor 0 col) = [LcdWrite.cmd (0x80 + col)]) ∧
    (∀ p : LcdBus, lcdWrites p (LCD_SetCursor 1 col) = [LcdWrite.cmd (0xC0 + col)]) ∧
    (∀ p : LcdBus, lcdWrites p (LCD_SetCursor 0 5) = [LcdWrite.cmd 0x85]) ∧
    (∀ p : LcdBus, lcdWrites p (LCD_SetCursor 1 3) = [LcdWrite.cmd 0xC3]) := by
  have h0 : (0x80 + col) % 256 = 0x80 + col := by omega
  have h1 : (0xC0 + col) % 256 = 0xC0 + col := by omega
  refine ⟨?_, ?_, by omega, ?_, ?_, ?_, ?_⟩
  · simp [LCD_SetCursor, h0]
  · simp [LCD_SetCursor, h1]
  · intro p
    simp [LCD_SetCursor, lcdWrites_Command, h0]
  · intro p
    simp [LCD_SetCursor, lcdWrites_Command, h1]
  · intro p
    simp [LCD_SetCursor, lcdWrites_Command]
  · intro p
    simp [LCD_SetCursor, lcdWrites_Command]

/-- C6 witness: column 15, the last one. -/
theorem C6_cursor_address_witness :
    15 ≤ 15 ∧ LCD_SetCursor 0 15 = LCD_Command 0x8F ∧ LCD_SetCursor 1 15 = LCD_Command 0xCF :=
  ⟨by decide, (C6_cursor_address 15 (by decide)).1, (C6_cursor_address 15 (by decide)).2.1⟩

/-- C7: for all digits a, b in 0..9 and op in + or - whose value (a+b for +,
a-b for -) is a digit n in 0..9, `Get_Expression` on the keys a, op, b, = exits,
and `Display_Result(result)` then sends to the display: the cursor command for
row 1 column 10 and the digit n; the cursor command 0x80 (row 0 column 0),
sixteen blanks, the cursor command 0x80 again, and exactly the nine characters
a, blank, op, blank, b, blank, =, blank, n -- for the keys 5, +, 3, = the text
"5 + 3 = 8". -/
theorem C7_success_rendering (g : Globals) (a b op n : Nat) (ha : a ≤ 9) (hb : b ≤ 9)
    (hr : (op = 43 ∧ (n : Int) = (a : Int) + b) ∨ (op = 45 ∧ (n : Int) = (a : Int) - b))
    (hn : n ≤ 9) :
    (Get_Expression g [a + 48, op, b + 48, 61]).exited = true ∧
    ∀ p : LcdBus,
      lcdWrites p
          (Display_Result (Get_Expression g [a + 48, op, b + 48, 61]).eng.toGlobals
            (Get_Expression g [a + 48, op, b + 48, 61]).eng.result)
        = [LcdWrite.cmd 0xCA, LcdWrite.data (n + 48), LcdWrite.cmd 0x80] ++
          List.replicate 16 (LcdWrite.data 32) ++ [LcdWrite.cmd 0x80] ++
          [a + 48, 32, op, 32, b + 48, 32, 61, 32, n + 48].map LcdWrite.data := by
  have hop : op = 43 ∨ op = 45 := by rcases hr with h | h <;> simp [h.1]
  have h09 : 0 ≤ (n : Int) ∧ (n : Int) ≤ 9 := by omega
  rw [Get_Expression_expression g a b op ha hb n hr, if_pos h09]
  refine ⟨rfl, ?_⟩
  intro p
  exact Display_Result_digit_writes a b op n ha hb hop hn p

/-- C7 witness: the keys 5, +, 3, = leave "5 + 3 = 8" on line 0. -/
theorem C7_success_rendering_witness :
    (5 ≤ 9 ∧ 3 ≤ 9 ∧ 8 ≤ 9 ∧ ((8 : Nat) : Int) = ((5 : Nat) : Int) + ((3 : Nat) : Int)) ∧
    (Get_Expression Globals.init [53, 43, 51, 61]).exited = true ∧
    lcdWrites LcdBus.idle
        (Display_Result (Get_Expression Globals.init [53, 43, 51, 61]).eng.toGlobals
          (Get_Expression Globals.init [53, 43, 51, 61]).eng.result)
      = [LcdWrite.cmd 0xCA, LcdWrite.data 56, LcdWrite.cmd 0x80] ++
        List.replicate 16 (LcdWrite.data 32) ++ [LcdWrite.cmd 0x80] ++
        (cstr "5 + 3 = 8").map LcdWrite.data :=
  ⟨⟨by decide, by decide, by decide, by decide⟩,
   (C7_success_rendering Globals.init 5 3 43 8 (by decide) (by decide)
      (Or.inl ⟨rfl, by decide⟩) (by decide)).1,
   (C7_success_rendering Globals.init 5 3 43 8 (by decide) (by decide)
      (Or.inl ⟨rfl, by decide⟩) (by decide)).2 LcdBus.idle⟩

/-- C8 (amended): the keys 7, -, 9, = make `Get_Expression` take the error path.
The computed result -2 is outside the accepted range 0..9, so after the echo of
the four keys the text "Error: Result>9" is written at row 1 column 0
(command 0xC0), the prompt is restored, the cursor returns to row 1 column 8, and
the input loop continues in state 0 with operands and operator cleared;
`Display_Result` is not reached on these keys. -/
theorem C8_negative_takes_error_path :
    Get_Expression Globals.init [55, 45, 57, 61]
      = ⟨⟨⟨0, 0, 0, -2⟩, 0⟩,
         LCD_SetCursor 1 8 ++
         (LCD_Data 55 ++ LCD_Data 45 ++ LCD_Data 57 ++ LCD_Data 61 ++
          LCD_SetCursor 1 0 ++ LCD_String (cstr "Error: Result>9") ++
          delay_ms 2000 ++ LCD_SetCursor 1 0 ++ LCD_String (cstr "A op B =       ") ++
          LCD_SetCursor 1 8), false⟩ ∧
    lcdWrites LcdBus.idle (Get_Expression Globals.init [55, 45, 57, 61]).out
      = [LcdWrite.cmd 0xC8, LcdWrite.data 55, LcdWrite.data 45, LcdWrite.data 57,
         LcdWrite.data 61, LcdWrite.cmd 0xC0] ++
        (cstr "Error: Result>9").map LcdWrite.data ++ [LcdWrite.cmd 0xC0] ++
        (cstr "A op B =       ").map LcdWrite.data ++ [LcdWrite.cmd 0xC8] := by
  have h := Get_Expression_expression Globals.init 7 9 45 (by decide) (by decide) (-2)
    (Or.inr ⟨rfl, by decide⟩)
  rw [if_neg (by decide)] at h
  exact ⟨h, by decide⟩

/-- C8 counterexample: on the keys 7, -, 9, = the input loop of `Get_Expression`
does not exit (so `Display_Result` is not called), the fifteen data bytes sent
after the echo are the error text, and row 0 is never addressed (command 0x80
does not occur), so "7 - 9 = -2" is not displayed. -/
theorem C8_counterexample :
    (Get_Expression Globals.init [55, 45, 57, 61]).exited = false ∧
    ((lcdWrites LcdBus.idle (Get_Expression Globals.init [55, 45, 57, 61]).out).drop 6).take 15
      = (cstr "Error: Result>9").map LcdWrite.data ∧
    LcdWrite.cmd 0x80 ∉ lcdWrites LcdBus.idle (Get_Expression Globals.init [55, 45, 57, 61]).out := by
  refine ⟨by decide, by decide, by decide⟩

/-- C10: clear discards everything entered before it.  For every key sequence ks
over which `Get_Expression` does not exit, and for all digits a, b in 0..9 and
op in + or -, feeding ks, then *, then a, op, b, = ends with the same
first_operand, operator, second_operand, result and state, and the same exit
status, as feeding a, op, b, = alone from the same start, hence with the same
output of `Display_Result`; when the value is a digit n in 0..9 both runs exit and
`Display_Result` writes the characters a, blank, op, blank, b, blank, =, blank, n
on line 0. -/
theorem C10_clear_discards (g : Globals) (ks : List Nat) (a b op : Nat) (r : Int)
    (ha : a ≤ 9) (hb : b ≤ 9)
    (hr : (op = 43 ∧ r = (a : Int) + b) ∨ (op = 45 ∧ r = (a : Int) - b))
    (hks : (Get_Expression g ks).exited = false) :
    (Get_Expression g (ks ++ [42, a + 48, op, b + 48, 61])).eng
      = (Get_Expression g [a + 48, op, b + 48, 61]).eng ∧
    (Get_Expression g (ks ++ [42, a + 48, op, b + 48, 61])).exited
      = (Get_Expression g [a + 48, op, b + 48, 61]).exited ∧
    Display_Result (Get_Expression g (ks ++ [42, a + 48, op, b + 48, 61])).eng.toGlobals
        (Get_Expression g (ks ++ [42, a + 48, op, b + 48, 61])).eng.result
      = Display_Result (Get_Expression g [a + 48, op, b + 48, 61]).eng.toGlobals
        (Get_Expression g [a + 48, op, b + 48, 61]).eng.result ∧
    (0 ≤ r ∧ r ≤ 9 →
      (Get_Expression g (ks ++ [42, a + 48, op, b + 48, 61])).exited = true ∧
      ∀ p : LcdBus,
        lcdWrites p
            (Display_Result
              (Get_Expression g (ks ++ [42, a + 48, op, b + 48, 61])).eng.toGlobals
              (Get_Expression g (ks ++ [42, a + 48, op, b + 48, 61])).eng.result)
          = [LcdWrite.cmd 0xCA, LcdWrite.data (r.toNat + 48), LcdWrite.cmd 0x80] ++
            List.replicate 16 (LcdWrite.data 32) ++ [LcdWrite.cmd 0x80] ++
            [a + 48, 32, op, 32, b + 48, 32, 61, 32, r.toNat + 48].map LcdWrite.data) := by
  have hop : op = 43 ∨ op = 45 := by rcases hr with h | h <;> simp [h.1]
  have hks2 : (Get_Expression_loop ⟨⟨0, 0, 0, g.result⟩, 0⟩ ks).exited = false := hks
  have hrun : (Get_Expression g (ks ++ [42, a + 48, op, b + 48, 61])).eng
        = (Get_Expression g [a + 48, op, b + 48, 61]).eng ∧
      (Get_Expression g (ks ++ [42, a + 48, op, b + 48, 61])).exited
        = (Get_Expression g [a + 48, op, b + 48, 61]).exited := by
    rw [Get_Expression_expression g a b op ha hb r hr]
    unfold Get_Expression
    rw [loop_append _ ks _ hks2, loop_cons, key_clear]
    simp only [Bool.false_eq_true, if_false]
    rw [loop_expression _ a b op ha hb r hr]
    by_cases h : 0 ≤ r ∧ r ≤ 9
    · simp [h]
    · simp [h]
  refine ⟨hrun.1, hrun.2, by rw [hrun.1], ?_⟩
  intro h09
  rw [hrun.1, hrun.2, Get_Expression_expression g a b op ha hb r hr, if_pos h09]
  refine ⟨rfl, ?_⟩
  intro p
  obtain ⟨n, rfl⟩ := Int.eq_ofNat_of_zero_le h09.1
  have hn : n ≤ 9 := by omega
  simpa using Display_Result_digit_writes a b op n ha hb hop hn p

/-- C10 witness: the keys 4, *, 2, +, 1, = end with the display "2 + 1 = 3". -/
theorem C10_clear_discards_witness :
    (Get_Expression Globals.init [52]).exited = false ∧
    (Get_Expression Globals.init [52, 42, 50, 43, 49, 61]).eng
      = (Get_Expression Globals.init [50, 43, 49, 61]).eng ∧
    (Get_Expression Globals.init [52, 42, 50, 43, 49, 61]).exited = true ∧
    lcdWrites LcdBus.idle
        (Display_Result (Get_Expression Globals.init [52, 42, 50, 43, 49, 61]).eng.toGlobals
          (Get_Expression Globals.init [52, 42, 50, 43, 49, 61]).eng.result)
      = [LcdWrite.cmd 0xCA, LcdWrite.data 51, LcdWrite.cmd 0x80] ++
        List.replicate 16 (LcdWrite.data 32) ++ [LcdWrite.cmd 0x80] ++
        (cstr "2 + 1 = 3").map LcdWrite.data :=
  ⟨by decide,
   (C10_clear_discards Globals.init [52] 2 1 43 3 (by decide) (by decide)
      (Or.inl ⟨rfl, by decide⟩) (by decide)).1,
   ((C10_clear_discards Globals.init [52] 2 1 43 3 (by decide) (by decide)
      (Or.inl ⟨rfl, by decide⟩) (by decide)).2.2.2 ⟨by decide, by decide⟩).1,
   ((C10_clear_discards Globals.init [52] 2 1 43 3 (by decide) (by decide)
      (Or.inl ⟨rfl, by decide⟩) (by decide)).2.2.2 ⟨by decide, by decide⟩).2 LcdBus.idle⟩

/-! ## Keypad scanner lemmas -/

theorem release_held (mask row col : Nat) (held : List Nat) (rel : Nat) (rest : List Nat)
    (hh : ∀ v ∈ held, v &&& mask = 0) (hr : rel &&& mask ≠ 0) :
    (Read_Keypad_release mask row col (held ++ rel :: rest)).1 = true ∧
    (Read_Keypad_release mask row col (held ++ rel :: rest)).2.2 = rest := by
  induction held with
  | nil => simp [Read_Keypad_release, hr]
  | cons v vs ih =>
    have hv : v &&& mask = 0 := hh v (List.mem_cons_self v vs)
    have ih2 := ih (fun w hw => hh w (List.mem_cons_of_mem v hw))
    simp only [List.cons_append, Read_Keypad_release, hv, if_true]
    exact ih2

theorem hit_held (mask row col : Nat) (held : List Nat) (rel : Nat) (rest : List Nat)
    (hh : ∀ v ∈ held, v &&& mask = 0) (hr : rel &&& mask ≠ 0) :
    (Read_Keypad_hit mask row col (held ++ rel :: rest)).status
      = ScanStatus.returned (keypad_at row col) ∧
    (Read_Keypad_hit mask row col (held ++ rel :: rest)).rest = rest := by
  have h := release_held mask row col held rel rest hh hr
  simp [Read_Keypad_hit, h.1, h.2]

theorem cols_idle (row v1 v2 v3 : Nat) (s : List Nat)
    (h1 : v1 &&& COL1 ≠ 0) (h2 : v2 &&& COL2 ≠ 0) (h3 : v3 &&& COL3 ≠ 0) :
    Read_Keypad_cols row (v1 :: v2 :: v3 :: s)
      = ⟨ScanStatus.noKey,
         [KeyEv.read row 0 v1, KeyEv.read row 1 v2, KeyEv.read row 2 v3], s⟩ := by
  simp [Read_Keypad_cols, h1, h2, h3]

theorem rows_succ_idle (n row v1 v2 v3 : Nat) (s : List Nat)
    (h1 : v1 &&& COL1 ≠ 0) (h2 : v2 &&& COL2 ≠ 0) (h3 : v3 &&& COL3 ≠ 0) :
    (Read_Keypad_rows (n + 1) row (v1 :: v2 :: v3 :: s)).status
      = (Read_Keypad_rows n (row + 1) s).status ∧
    (Read_Keypad_rows (n + 1) row (v1 :: v2 :: v3 :: s)).rest
      = (Read_Keypad_rows n (row + 1) s).rest := by
  simp [Read_Keypad_rows, cols_idle row v1 v2 v3 s h1 h2 h3]

theorem rows_skip (k : Nat) : ∀ (n row : Nat) (idle s : List Nat),
    idle.length = 3 * k → (∀ v ∈ idle, allHigh v) →
    (Read_Keypad_rows (k + n) row (idle ++ s)).status
      = (Read_Keypad_rows n (row + k) s).status ∧
    (Read_Keypad_rows (k + n) row (idle ++ s)).rest
      = (Read_Keypad_rows n (row + k) s).rest := by
  induction k with
  | zero =>
    intro n row idle s hlen _
    have : idle = [] := List.length_eq_zero.mp (by simpa using hlen)
    subst this
    simp
  | succ k ih =>
    intro n row idle s hlen hall
    match idle, hlen, hall with
    | v1 :: v2 :: v3 :: tl, hlen, hall =>
      have hl : tl.length = 3 * k := by
        simp only [List.length_cons] at hlen
        omega
      have a1 : allHigh v1 := hall v1 (by simp)
      have a2 : allHigh v2 := hall v2 (by simp)
      have a3 : allHigh v3 := hall v3 (by simp)
      have htl : ∀ v ∈ tl, allHigh v := fun v hv => hall v (by simp [hv])
      have e : k + 1 + n = (k + n) + 1 := by omega
      have e2 : row + (k + 1) = (row + 1) + k := by omega
      rw [e, e2]
      have hs := rows_succ_idle (k + n) row v1 v2 v3 (tl ++ s) a1.1 a2.2.1 a3.2.2
      have hi := ih n (row + 1) tl s hl htl
      simp only [List.cons_append]
      exact ⟨hs.1.trans hi.1, hs.2.trans hi.2⟩
    | [], hlen, _ => simp at hlen
    | [_], hlen, _ => simp only [List.length_cons, List.length_nil] at hlen; omega
    | [_, _], hlen, _ => simp only [List.length_cons, List.length_nil] at hlen; omega

theorem rows_hit0 (n row g : Nat) (held : List Nat) (rel : Nat) (rest : List Nat)
    (hg : g &&& COL1 = 0) (hh : ∀ v ∈ held, v &&& COL1 = 0) (hr : rel &&& COL1 ≠ 0) :
    (Read_Keypad_rows (n + 1) row (g :: (held ++ rel :: rest))).status
      = ScanStatus.returned (keypad_at row 0) ∧
    (Read_Keypad_rows (n + 1) row (g :: (held ++ rel :: rest))).rest = rest := by
  have h := hit_held COL1 row 0 held rel rest hh hr
  simp [Read_Keypad_rows, Read_Keypad_cols, hg, h.1, h.2]

theorem rows_hit1 (n row a g : Nat) (held : List Nat) (rel : Nat) (rest : List Nat)
    (ha : a &&& COL1 ≠ 0)
    (hg : g &&& COL2 = 0) (hh : ∀ v ∈ held, v &&& COL2 = 0) (hr : rel &&& COL2 ≠ 0) :
    (Read_Keypad_rows (n + 1) row (a :: g :: (held ++ rel :: rest))).status
      = ScanStatus.returned (keypad_at row 1) ∧
    (Read_Keypad_rows (n + 1) row (a :: g :: (held ++ rel :: rest))).rest = rest := by
  have h := hit_held COL2 row 1 held rel rest hh hr
  simp [Read_Keypad_rows, Read_Keypad_cols, ha, hg, h.1, h.2]

theorem rows_hit2 (n row a b g : Nat) (held : List Nat) (rel : Nat) (rest : List Nat)
    (ha : a &&& COL1 ≠ 0) (hb : b &&& COL2 ≠ 0)
    (hg : g &&& COL3 = 0) (hh : ∀ v ∈ held, v &&& COL3 = 0) (hr : rel &&& COL3 ≠ 0) :
    (Read_Keypad_rows (n + 1) row (a :: b :: g :: (held ++ rel :: rest))).status
      = ScanStatus.returned (keypad_at row 2) ∧
    (Read_Keypad_rows (n + 1) row (a :: b :: g :: (held ++ rel :: rest))).rest = rest := by
  have h := hit_held COL3 row 2 held rel rest hh hr
  simp [Read_Keypad_rows, Read_Keypad_cols, ha, hb, hg, h.1, h.2]

/-- Detection of a press at row r, column c: after 3r samples with all columns
high and c samples whose lower columns read high, a sample with column c low is
taken as a press; the function returns the table entry once column c reads high. -/
theorem Read_Keypad_detect (r c : Nat) (hr : r < 4) (hc : c < 3)
    (idle before held : List Nat) (g rel : Nat) (rest : List Nat)
    (hlen : idle.length = 3 * r) (hidle : ∀ v ∈ idle, allHigh v)
    (hblen : before.length = c) (hbefore : ∀ v ∈ before, ∀ j, j < c → v &&& colMask j ≠ 0)
    (hg : g &&& colMask c = 0) (hheld : ∀ v ∈ held, v &&& colMask c = 0)
    (hrel : rel &&& colMask c ≠ 0) :
    (Read_Keypad (idle ++ (before ++ g :: (held ++ rel :: rest)))).status
      = ScanStatus.returned (keypad_at r c) ∧
    (Read_Keypad (idle ++ (before ++ g :: (held ++ rel :: rest)))).rest = rest := by
  have e4 : 4 = r + ((3 - r) + 1) := by omega
  unfold Read_Keypad
  rw [e4]
  have hs := rows_skip r ((3 - r) + 1) 0 idle (before ++ g :: (held ++ rel :: rest)) hlen hidle
  rw [hs.1, hs.2, Nat.zero_add]
  match c, hc, before, hblen, hbefore, hg, hheld, hrel with
  | 0, _, [], _, _, hg, hheld, hrel =>
    exact rows_hit0 (3 - r) r g held rel rest hg hheld hrel
  | 1, _, [a], _, hbefore, hg, hheld, hrel =>
    have ha : a &&& COL1 ≠ 0 := hbefore a (by simp) 0 (by omega)
    exact rows_hit1 (3 - r) r a g held rel rest ha hg hheld hrel
  | 2, _, [a, b], _, hbefore, hg, hheld, hrel =>
    have ha : a &&& COL1 ≠ 0 := hbefore a (by simp) 0 (by omega)
    have hb : b &&& COL2 ≠ 0 := hbefore b (by simp) 1 (by omega)
    exact rows_hit2 (3 - r) r a b g held rel rest ha hb hg hheld hrel

theorem rows_all_idle (scan rest : List Nat) (hlen : scan.length = 12)
    (hall : ∀ v ∈ scan, allHigh v) :
    (Read_Keypad (scan ++ rest)).status = ScanStatus.returned 0 ∧
    (Read_Keypad (scan ++ rest)).rest = rest := by
  have hs := rows_skip 4 0 0 scan rest (by simpa using hlen) hall
  unfold Read_Keypad
  have h := hs
  simp only [Nat.add_zero, Nat.zero_add] at h
  rw [h.1, h.2]
  simp [Read_Keypad_rows]

theorem keypad_at_ne_zero (r c : Nat) (hr : r < 4) (hc : c < 3) : keypad_at r c ≠ 0 := by
  interval_cases r <;> interval_cases c <;> decide

/-! ## Row lines during a scan -/

theorem readLevels_append (l : RowLines) (a b : List KeyEv) :
    readLevels l (a ++ b) = readLevels l a ++ readLevels (a.foldl RowLines.step l) b := by
  induction a generalizing l with
  | nil => rfl
  | cons e es ih =>
    cases e <;> simp [readLevels, ih]

theorem release_levels (mask row col : Nat) (l : RowLines) (s : List Nat) :
    (∀ x ∈ readLevels l (Read_Keypad_release mask row col s).2.1, x = (row, l)) ∧
    (Read_Keypad_release mask row col s).2.1.foldl RowLines.step l = l := by
  induction s with
  | nil => simp [Read_Keypad_release, readLevels]
  | cons v vs ih =>
    by_cases hv : v &&& mask = 0
    · simp only [Read_Keypad_release, hv, if_true, readLevels, List.foldl_cons, RowLines.step]
      refine ⟨?_, ih.2⟩
      intro x hx
      rcases List.mem_cons.mp hx with h | h
      · exact h
      · exact ih.1 x h
    · simp [Read_Keypad_release, hv, readLevels, RowLines.step]

theorem hit_levels (mask row col : Nat) (l : RowLines) (s : List Nat) :
    (∀ x ∈ readLevels l (Read_Keypad_hit mask row col s).trace, x = (row, l)) ∧
    (Read_Keypad_hit mask row col s).trace.foldl RowLines.step l = l := by
  simpa [Read_Keypad_hit] using release_levels mask row col l s

theorem cols_levels (row : Nat) (l : RowLines) (s : List Nat) :
    (∀ x ∈ readLevels l (Read_Keypad_cols row s).trace, x = (row, l)) ∧
    (Read_Keypad_cols row s).trace.foldl RowLines.step l = l := by
  unfold Read_Keypad_cols
  split
  · simp [readLevels]
  · rename_i v1 s1
    split
    · have h := hit_levels COL1 row 0 l s1
      simp only [readLevels, List.foldl_cons, RowLines.step, List.mem_cons]
      exact ⟨fun x hx => hx.elim id (h.1 x), h.2⟩
    · split
      · simp [readLevels, RowLines.step]
      · rename_i v2 s2
        split
        · have h := hit_levels COL2 row 1 l s2
          simp only [readLevels, List.foldl_cons, RowLines.step, List.mem_cons]
          exact ⟨fun x hx => hx.elim id (fun h2 => h2.elim id (h.1 x)), h.2⟩
        · split
          · simp [readLevels, RowLines.step]
          · rename_i v3 s3
            split
            · have h := hit_levels COL3 row 2 l s3
              simp only [readLevels, List.foldl_cons, RowLines.step, List.mem_cons]
              exact ⟨fun x hx =>
                hx.elim id (fun h2 => h2.elim id (fun h3 => h3.elim id (h.1 x))), h.2⟩
            · simp [readLevels, RowLines.step]

theorem select_levels (row : Nat) (hrow : row < 4) (l : RowLines) :
    readLevels l ([KeyEv.rowSet (ROW1 ||| ROW2 ||| ROW3 ||| ROW4)] ++ Read_Keypad_select row ++
        [KeyEv.delay 10]) = [] ∧
    ([KeyEv.rowSet (ROW1 ||| ROW2 ||| ROW3 ||| ROW4)] ++ Read_Keypad_select row ++
        [KeyEv.delay 10]).foldl RowLines.step l = onlyRowLow row := by
  have a19 : Nat.testBit (ROW1 ||| ROW2 ||| ROW3 ||| ROW4) 19 = true := by decide
  have a20 : Nat.testBit (ROW1 ||| ROW2 ||| ROW3 ||| ROW4) 20 = true := by decide
  have a21 : Nat.testBit (ROW1 ||| ROW2 ||| ROW3 ||| ROW4) 21 = true := by decide
  have a22 : Nat.testBit (ROW1 ||| ROW2 ||| ROW3 ||| ROW4) 22 = true := by decide
  interval_cases row
  · have b19 : Nat.testBit ROW1 19 = true := by decide
    have b20 : Nat.testBit ROW1 20 = false := by decide
    have b21 : Nat.testBit ROW1 21 = false := by decide
    have b22 : Nat.testBit ROW1 22 = false := by decide
    simp [Read_Keypad_select, readLevels, RowLines.step, onlyRowLow, a19, a20, a21, a22,
      b19, b20, b21, b22]
  · have b19 : Nat.testBit ROW2 19 = false := by decide
    have b20 : Nat.testBit ROW2 20 = true := by decide
    have b21 : Nat.testBit ROW2 21 = false := by decide
    have b22 : Nat.testBit ROW2 22 = false := by decide
    simp [Read_Keypad_select, readLevels, RowLines.step, onlyRowLow, a19, a20, a21, a22,
      b19, b20, b21, b22]
  · have b19 : Nat.testBit ROW3 19 = false := by decide
    have b20 : Nat.testBit ROW3 20 = false := by decide
    have b21 : Nat.testBit ROW3 21 = true := by decide
    have b22 : Nat.testBit ROW3 22 = false := by decide
    simp [Read_Keypad_select, readLevels, RowLines.step, onlyRowLow, a19, a20, a21, a22,
      b19, b20, b21, b22]
  · have b19 : Nat.testBit ROW4 19 = false := by decide
    have b20 : Nat.testBit ROW4 20 = false := by decide
    have b21 : Nat.testBit ROW4 21 = false := by decide
    have b22 : Nat.testBit ROW4 22 = true := by decide
    simp [Read_Keypad_select, readLevels, RowLines.step, onlyRowLow, a19, a20, a21, a22,
      b19, b20, b21, b22]

theorem rows_succ_trace (n row : Nat) (s : List Nat) :
    (Read_Keypad_rows (n + 1) row s).trace
      = ([KeyEv.rowSet (ROW1 ||| ROW2 ||| ROW3 ||| ROW4)] ++ Read_Keypad_select row ++
          [KeyEv.delay 10]) ++ (Read_Keypad_cols row s).trace ++
        (if (Read_Keypad_cols row s).status = ScanStatus.noKey then
          (Read_Keypad_rows n (row + 1) (Read_Keypad_cols row s).rest).trace else []) := by
  simp only [Read_Keypad_rows]
  split
  · rename_i h
    rw [if_pos h]
  · rename_i h
    rw [if_neg (by simpa using h), List.append_nil]

theorem rows_levels (n : Nat) : ∀ (row : Nat) (s : List Nat) (l : RowLines),
    row + n ≤ 4 →
    ∀ x ∈ readLevels l (Read_Keypad_rows n row s).trace, x.1 < 4 ∧ x.2 = onlyRowLow x.1 := by
  induction n with
  | zero =>
    intro row s l _ x hx
    simp [Read_Keypad_rows, readLevels] at hx
  | succ n ih =>
    intro row s l hle x hx
    have hrow : row < 4 := by omega
    have hsel := select_levels row hrow l
    have hcols := cols_levels row (onlyRowLow row) s
    have key : ∀ y ∈ readLevels (onlyRowLow row) (Read_Keypad_cols row s).trace,
        y.1 < 4 ∧ y.2 = onlyRowLow y.1 := by
      intro y hy
      rw [hcols.1 y hy]
      exact ⟨hrow, rfl⟩
    rw [rows_succ_trace] at hx
    generalize ([KeyEv.rowSet (ROW1 ||| ROW2 ||| ROW3 ||| ROW4)] ++ Read_Keypad_select row ++
      [KeyEv.delay 10]) = pre at hx hsel
    rw [readLevels_append, readLevels_append, hsel.1, List.foldl_append,
      hsel.2, hcols.2, List.nil_append] at hx
    rcases List.mem_append.mp hx with h | h
    · exact key x h
    · by_cases hst : (Read_Keypad_cols row s).status = ScanStatus.noKey
      · rw [if_pos hst] at h
        exact ih (row + 1) _ _ (by omega) x h
      · rw [if_neg hst] at h
        simp [readLevels] at h

/-! ## Claims on the keypad scanner and the LCD protocol -/

/-- C11 counterexample: column 1 reads low at the first sample of the scan and
high at the next one, and `Read_Keypad` returns the key 1 (code 49), not 0. -/
theorem C11_counterexample :
    (COL2 ||| COL3) &&& COL1 = 0 ∧ (COL1 ||| COL2 ||| COL3) &&& COL1 ≠ 0 ∧
    (Read_Keypad [COL2 ||| COL3, COL1 ||| COL2 ||| COL3]).status = ScanStatus.returned 49 ∧
    (Read_Keypad [COL2 ||| COL3, COL1 ||| COL2 ||| COL3]).rest = [] := by
  refine ⟨by decide, by decide, by decide, by decide⟩

/-- C12: for every row r in 0..3 and column c in 0..2, when the key at (r, c) is
the only key pressed -- the 3r samples of the earlier scan iterations read all
columns high, the samples taken while row r is driven low read column c low and
the other columns high, and a later sample reads column c high (release) --
`Read_Keypad` returns keypad[r][c] and consumes the samples up to the release.
When the twelve samples of the four scan iterations read all columns high it
returns 0.  The table is 1 2 3 / 4 5 6 / 7 8 9 / * 0 #. -/
theorem C12_single_key (r c : Nat) (hr : r < 4) (hc : c < 3)
    (idle during : List Nat) (rel : Nat) (rest : List Nat)
    (hlen : idle.length = 3 * r) (hidle : ∀ v ∈ idle, allHigh v)
    (hdlen : c + 1 ≤ during.length)
    (hduring : ∀ v ∈ during, v &&& colMask c = 0 ∧ ∀ j, j < 3 → j ≠ c → v &&& colMask j ≠ 0)
    (hrel : rel &&& colMask c ≠ 0) :
    ((Read_Keypad (idle ++ during ++ rel :: rest)).status
        = ScanStatus.returned (keypad_at r c) ∧
      (Read_Keypad (idle ++ during ++ rel :: rest)).rest = rest) ∧
    (∀ scan tail : List Nat, scan.length = 12 → (∀ v ∈ scan, allHigh v) →
      (Read_Keypad (scan ++ tail)).status = ScanStatus.returned 0 ∧
      (Read_Keypad (scan ++ tail)).rest = tail) ∧
    keypad = [[49, 50, 51], [52, 53, 54], [55, 56, 57], [42, 48, 35]] := by
  refine ⟨?_, fun scan tail h1 h2 => rows_all_idle scan tail h1 h2, rfl⟩
  have h2 : (during.take c).length = c := by
    rw [List.length_take]
    omega
  have h4 : ∀ v ∈ during.take c, ∀ j, j < c → v &&& colMask j ≠ 0 := by
    intro v hv j hj
    exact (hduring v (List.mem_of_mem_take hv)).2 j (by omega) (by omega)
  have hne : during.drop c ≠ [] := by
    intro hnil
    have := congrArg List.length hnil
    rw [List.length_drop] at this
    simp at this
    omega
  obtain ⟨g, held, hgh⟩ := List.exists_cons_of_ne_nil hne
  have hg : g &&& colMask c = 0 :=
    (hduring g (List.mem_of_mem_drop (by rw [hgh]; simp))).1
  have hheld : ∀ v ∈ held, v &&& colMask c = 0 :=
    fun v hv => (hduring v (List.mem_of_mem_drop (by rw [hgh]; simp [hv]))).1
  have hd := Read_Keypad_detect r c hr hc idle (during.take c) held g rel rest
    hlen hidle h2 h4 hg hheld hrel
  have e : idle ++ during ++ rel :: rest
      = idle ++ (during.take c ++ g :: (held ++ rel :: rest)) := by
    have e1 : during = during.take c ++ g :: held := by
      rw [← hgh, List.take_append_drop]
    conv_lhs => rw [e1]
    simp [List.append_assoc]
  rw [e]
  exact hd

/-- C12 witness: the key 8 (row 2, column 1), held for two further samples. -/
theorem C12_single_key_witness :
    (Read_Keypad (List.replicate 6 (COL1 ||| COL2 ||| COL3) ++
        List.replicate 4 (COL1 ||| COL3) ++ (COL1 ||| COL2 ||| COL3) :: [7])).status
      = ScanStatus.returned 56 ∧
    (Read_Keypad (List.replicate 6 (COL1 ||| COL2 ||| COL3) ++
        List.replicate 4 (COL1 ||| COL3) ++ (COL1 ||| COL2 ||| COL3) :: [7])).rest = [7] :=
  (C12_single_key 2 1 (by decide) (by decide)
    (List.replicate 6 (COL1 ||| COL2 ||| COL3)) (List.replicate 4 (COL1 ||| COL3))
    (COL1 ||| COL2 ||| COL3) [7]
    (by decide) (by decide) (by decide) (by decide) (by decide)).1

/-- C13: at every read of the column inputs made by `Read_Keypad` -- for any
sequence of samples, whether or not the call returns, and whatever the row lines
were before the call -- exactly the row line of the current scan iteration is low
and the other three are high; in particular two rows are never low together.
On an idle keypad the twelve reads of a call belong to the scan iterations
0, 0, 0, 1, 1, 1, 2, 2, 2, 3, 3, 3. -/
theorem C13_one_row_low (samples : List Nat) (l : RowLines) :
    (∀ x ∈ readLevels l (Read_Keypad samples).trace,
      x.1 < 4 ∧ x.2 = ⟨x.1 != 0, x.1 != 1, x.1 != 2, x.1 != 3⟩ ∧
      [x.2.row1, x.2.row2, x.2.row3, x.2.row4].count false = 1) ∧
    (readLevels l (Read_Keypad (List.replicate 12 (COL1 ||| COL2 ||| COL3))).trace).map Prod.fst
      = [0, 0, 0, 1, 1, 1, 2, 2, 2, 3, 3, 3] := by
  refine ⟨?_, ?_⟩
  swap
  · obtain ⟨a, b, c, d⟩ := l
    cases a <;> cases b <;> cases c <;> cases d <;> decide
  intro x hx
  have h := rows_levels 4 0 samples l (by decide) x hx
  refine ⟨h.1, h.2, ?_⟩
  rw [h.2]
  have h4 := h.1
  generalize x.1 = row at h4
  interval_cases row <;> decide

theorem busStates_Command (p : LcdBus) (b : Nat) :
    busStates p (LCD_Command b)
      = [⟨b % 256, p.rs, p.rw, p.en⟩, ⟨b % 256, false, false, p.en⟩,
         ⟨b % 256, false, false, true⟩, ⟨b % 256, false, false, true⟩,
         ⟨b % 256, false, false, false⟩, ⟨b % 256, false, false, false⟩] := by
  have h16 : Nat.testBit (RS ||| RW) 16 = true := by decide
  have h17 : Nat.testBit (RS ||| RW) 17 = true := by decide
  have h18 : Nat.testBit (RS ||| RW) 18 = false := by decide
  have e16 : Nat.testBit EN 16 = false := by decide
  have e17 : Nat.testBit EN 17 = false := by decide
  have e18 : Nat.testBit EN 18 = true := by decide
  simp [LCD_Command, delay_ms, busStates, LcdBus.step, h16, h17, h18, e16, e17, e18]

theorem busStates_Data (p : LcdBus) (b : Nat) :
    busStates p (LCD_Data b)
      = [⟨b % 256, p.rs, p.rw, p.en⟩, ⟨b % 256, true, p.rw, p.en⟩,
         ⟨b % 256, true, false, p.en⟩, ⟨b % 256, true, false, true⟩,
         ⟨b % 256, true, false, true⟩, ⟨b % 256, true, false, false⟩,
         ⟨b % 256, true, false, false⟩] := by
  have r16 : Nat.testBit RS 16 = true := by decide
  have r17 : Nat.testBit RS 17 = false := by decide
  have r18 : Nat.testBit RS 18 = false := by decide
  have w16 : Nat.testBit RW 16 = false := by decide
  have w17 : Nat.testBit RW 17 = true := by decide
  have w18 : Nat.testBit RW 18 = false := by decide
  have e16 : Nat.testBit EN 16 = false := by decide
  have e17 : Nat.testBit EN 17 = false := by decide
  have e18 : Nat.testBit EN 18 = true := by decide
  simp [LCD_Data, delay_ms, busStates, LcdBus.step, r16, r17, r18, w16, w17, w18, e16, e17, e18]

/-- C14: `LCD_Init` makes the display controller latch exactly four bytes, all in
the command register and in this order: 0x38, 0x0C, 0x06, 0x01; no data-register
write occurs.  Every store that drops Enable is immediately followed by a delay,
so each command is followed by a delay before the next one is presented, and the
last one by the delays of 1 and 2 ms. -/
theorem C14_init_sequence (d : LcdDirs) (p : LcdBus) :
    lcdWrites p (LCD_Init d).2
      = [LcdWrite.cmd 0x38, LcdWrite.cmd 0x0C, LcdWrite.cmd 0x06, LcdWrite.cmd 0x01] ∧
    (∀ b : Nat, LcdWrite.data b ∉ lcdWrites p (LCD_Init d).2) ∧
    settleAfterLatch (LCD_Init d).2 = true ∧
    (LCD_Init d).2
      = [Ev.delay 20,
         Ev.dataPort 0x38, Ev.ctrlClr (RS ||| RW), Ev.ctrlSet EN, Ev.delay 1, Ev.ctrlClr EN,
         Ev.delay 1,
         Ev.dataPort 0x0C, Ev.ctrlClr (RS ||| RW), Ev.ctrlSet EN, Ev.delay 1, Ev.ctrlClr EN,
         Ev.delay 1,
         Ev.dataPort 0x06, Ev.ctrlClr (RS ||| RW), Ev.ctrlSet EN, Ev.delay 1, Ev.ctrlClr EN,
         Ev.delay 1,
         Ev.dataPort 0x01, Ev.ctrlClr (RS ||| RW), Ev.ctrlSet EN, Ev.delay 1, Ev.ctrlClr EN,
         Ev.delay 1,
         Ev.delay 2] := by
  have hw : lcdWrites p (LCD_Init d).2
      = [LcdWrite.cmd 0x38, LcdWrite.cmd 0x0C, LcdWrite.cmd 0x06, LcdWrite.cmd 0x01] := by
    simp [LCD_Init, lcdWrites_delay_append, lcdWrites_Command_append, lcdWrites_delay,
      List.append_assoc]
  have hs : settleAfterLatch (LCD_Init ⟨0, 0⟩).2 = true := by decide
  refine ⟨hw, ?_, hs, rfl⟩
  intro b hb
  rw [hw] at hb
  simp at hb

/-- C15: over the model of the LCD lines, for every byte b and any prior line
levels, `LCD_Command(b)` first puts b on the data lines, then drives
Register-Select and Read/Write low, then raises Enable, waits, drops Enable and
waits: Enable is raised once and dropped once, in that order, and the one byte
latched is b in the command register.  `LCD_Data(b)` does the same with
Register-Select driven high and Read/Write low, and the byte latched is b in the
data register.  In both, the store that raises Enable comes after the stores of
the byte and of Register-Select. -/
theorem C15_write_protocol (b : Nat) (hb : b < 256) (p : LcdBus) :
    (LCD_Command b
        = [Ev.dataPort b, Ev.ctrlClr (RS ||| RW), Ev.ctrlSet EN, Ev.delay 1, Ev.ctrlClr EN,
           Ev.delay 1] ∧
      busStates p (LCD_Command b)
        = [⟨b, p.rs, p.rw, p.en⟩, ⟨b, false, false, p.en⟩, ⟨b, false, false, true⟩,
           ⟨b, false, false, true⟩, ⟨b, false, false, false⟩, ⟨b, false, false, false⟩] ∧
      lcdWrites p (LCD_Command b) = [LcdWrite.cmd b]) ∧
    (LCD_Data b
        = [Ev.dataPort b, Ev.ctrlSet RS, Ev.ctrlClr RW, Ev.ctrlSet EN, Ev.delay 1,
           Ev.ctrlClr EN, Ev.delay 1] ∧
      busStates p (LCD_Data b)
        = [⟨b, p.rs, p.rw, p.en⟩, ⟨b, true, p.rw, p.en⟩, ⟨b, true, false, p.en⟩,
           ⟨b, true, false, true⟩, ⟨b, true, false, true⟩, ⟨b, true, false, false⟩,
           ⟨b, true, false, false⟩] ∧
      lcdWrites p (LCD_Data b) = [LcdWrite.data b]) := by
  have hm : b % 256 = b := Nat.mod_eq_of_lt hb
  refine ⟨⟨rfl, ?_, ?_⟩, rfl, ?_, ?_⟩
  · rw [busStates_Command, hm]
  · rw [lcdWrites_Command, hm]
  · rw [busStates_Data, hm]
  · rw [lcdWrites_Data, hm]

/-- C15 witness: the byte 0x38 written from idle lines. -/
theorem C15_write_protocol_witness :
    (0x38 < 256) ∧
    busStates LcdBus.idle (LCD_Command 0x38)
      = [⟨0x38, false, false, false⟩, ⟨0x38, false, false, false⟩, ⟨0x38, false, false, true⟩,
         ⟨0x38, false, false, true⟩, ⟨0x38, false, false, false⟩,
         ⟨0x38, false, false, false⟩] ∧
    lcdWrites LcdBus.idle (LCD_Data 0x38) = [LcdWrite.data 0x38] :=
  ⟨by decide, (C15_write_protocol 0x38 (by decide) LcdBus.idle).1.2.1,
   (C15_write_protocol 0x38 (by decide) LcdBus.idle).2.2.2⟩

/-! ## Invariant and arithmetic of the calculator -/

theorem key_inv (e : Engine) (k : Nat) (h : engineInv e) :
    engineInv (Get_Expression_key e k).eng := by
  obtain ⟨h1, h2, h3, h4⟩ := h
  unfold Get_Expression_key
  simp only [engineInv]
  split_ifs <;> simp_all <;> omega

theorem loop_inv (ks : List Nat) : ∀ e : Engine, engineInv e →
    engineInv (Get_Expression_loop e ks).eng := by
  induction ks with
  | nil => intro e h; exact h
  | cons k ks ih =>
    intro e h
    rw [loop_cons]
    by_cases hx : (Get_Expression_key e k).exited = true
    · rw [if_pos hx]
      exact key_inv e k h
    · rw [if_neg hx]
      exact ih _ (key_inv e k h)

theorem key_equals_result (e : Engine) (hs : e.state = 3) (r : Int)
    (hr : (e.operator = 43 ∧
            r = BCD_To_Decimal e.first_operand + BCD_To_Decimal e.second_operand)
        ∨ (e.operator = 45 ∧
            r = BCD_To_Decimal e.first_operand - BCD_To_Decimal e.second_operand)) :
    (Get_Expression_key e 61).eng.result = r := by
  rw [key_equals e hs r hr]
  by_cases h : 0 ≤ r ∧ r ≤ 9
  · rw [if_pos h]
  · rw [if_neg h]

/-- C16: after any finite sequence of keys handled by `Get_Expression` (any
character codes, in any order, from any globals), first_operand and
second_operand are in 0..9 and operator is +, - or 0; and whenever the state
is 3 the operator is + or -, so that handling = stores a freshly computed result:
first_operand + second_operand for +, first_operand - second_operand for -. -/
theorem C16_engine_invariant (g : Globals) (ks : List Nat) :
    (Get_Expression g ks).eng.first_operand ≤ 9 ∧
    (Get_Expression g ks).eng.second_operand ≤ 9 ∧
    ((Get_Expression g ks).eng.operator = 43 ∨ (Get_Expression g ks).eng.operator = 45 ∨
      (Get_Expression g ks).eng.operator = 0) ∧
    ((Get_Expression g ks).eng.state = 3 →
      ((Get_Expression g ks).eng.operator = 43 ∨ (Get_Expression g ks).eng.operator = 45) ∧
      (Get_Expression_key (Get_Expression g ks).eng 61).eng.result
        = if (Get_Expression g ks).eng.operator = 43 then
            ((Get_Expression g ks).eng.first_operand : Int)
              + (Get_Expression g ks).eng.second_operand
          else
            ((Get_Expression g ks).eng.first_operand : Int)
              - (Get_Expression g ks).eng.second_operand) := by
  have h0 : engineInv ⟨⟨0, 0, 0, g.result⟩, 0⟩ := by
    simp [engineInv]
  have h := loop_inv ks _ h0
  have he : (Get_Expression g ks).eng
      = (Get_Expression_loop ⟨⟨0, 0, 0, g.result⟩, 0⟩ ks).eng := rfl
  rw [he]
  generalize (Get_Expression_loop ⟨⟨0, 0, 0, g.result⟩, 0⟩ ks).eng = e at h
  obtain ⟨h1, h2, h3, h4⟩ := h
  refine ⟨h1, h2, h3, ?_⟩
  intro hs
  have hop := h4 (Or.inr hs)
  refine ⟨hop, ?_⟩
  rcases hop with hp | hm
  · rw [if_pos hp]
    exact key_equals_result e hs _ (Or.inl ⟨hp, rfl⟩)
  · have hne : e.operator ≠ 43 := by omega
    rw [if_neg hne]
    exact key_equals_result e hs _ (Or.inr ⟨hm, rfl⟩)

/-- C17: for all digits a, b in 0..9 and op in + or -, the value stored in
result by the = key of `Get_Expression`, before the range check, is a+b for + and
a-b for - (`BCD_To_Decimal` is the identity); it lies in [-9, 18]; and every
integer in [-9, 18] is that value for some digits a, b and operator. -/
theorem C17_result_domain (res : Int) (a b op : Nat) (ha : a ≤ 9) (hb : b ≤ 9)
    (hop : op = 43 ∨ op = 45) :
    (op = 43 → (Get_Expression_key ⟨⟨a, b, op, res⟩, 3⟩ 61).eng.result = (a : Int) + b) ∧
    (op = 45 → (Get_Expression_key ⟨⟨a, b, op, res⟩, 3⟩ 61).eng.result = (a : Int) - b) ∧
    -9 ≤ (Get_Expression_key ⟨⟨a, b, op, res⟩, 3⟩ 61).eng.result ∧
    (Get_Expression_key ⟨⟨a, b, op, res⟩, 3⟩ 61).eng.result ≤ 18 ∧
    (∀ v : Int, -9 ≤ v → v ≤ 18 → ∃ a2 b2 op2 : Nat, a2 ≤ 9 ∧ b2 ≤ 9 ∧
      (op2 = 43 ∨ op2 = 45) ∧
      (Get_Expression_key ⟨⟨a2, b2, op2, res⟩, 3⟩ 61).eng.result = v) := by
  have hplus : ∀ x y : Nat,
      (Get_Expression_key ⟨⟨x, y, 43, res⟩, 3⟩ 61).eng.result = (x : Int) + y :=
    fun x y => key_equals_result _ rfl _ (Or.inl ⟨rfl, rfl⟩)
  have hminus : ∀ x y : Nat,
      (Get_Expression_key ⟨⟨x, y, 45, res⟩, 3⟩ 61).eng.result = (x : Int) - y :=
    fun x y => key_equals_result _ rfl _ (Or.inr ⟨rfl, rfl⟩)
  refine ⟨?_, ?_, ?_, ?_, ?_⟩
  · intro h
    subst h
    exact hplus a b
  · intro h
    subst h
    exact hminus a b
  · rcases hop with h | h
    · subst h
      rw [hplus]
      omega
    · subst h
      rw [hminus]
      omega
  · rcases hop with h | h
    · subst h
      rw [hplus]
      omega
    · subst h
      rw [hminus]
      omega
  · intro v hlo hhi
    by_cases hneg : v < 0
    · refine ⟨0, (-v).toNat, 45, by omega, by omega, Or.inr rfl, ?_⟩
      rw [hminus]
      omega
    · by_cases h9 : v ≤ 9
      · refine ⟨v.toNat, 0, 43, by omega, by omega, Or.inl rfl, ?_⟩
        rw [hplus]
        omega
      · refine ⟨9, (v - 9).toNat, 43, by omega, by omega, Or.inl rfl, ?_⟩
        rw [hplus]
        omega

/-- C17 witness: 9 + 9 = 18 and 0 - 9 = -9 are the two ends of the domain. -/
theorem C17_result_domain_witness :
    (Get_Expression_key ⟨⟨9, 9, 43, 0⟩, 3⟩ 61).eng.result = 18 ∧
    (Get_Expression_key ⟨⟨0, 9, 45, 0⟩, 3⟩ 61).eng.result = -9 :=
  ⟨((C17_result_domain 0 9 9 43 (by decide) (by decide) (Or.inl rfl)).1 rfl).trans (by decide),
   ((C17_result_domain 0 0 9 45 (by decide) (by decide) (Or.inr rfl)).2.1 rfl).trans
     (by decide)⟩

theorem keypad_at_range (r c : Nat) (hr : r < 4) (hc : c < 3) : keypadRange (keypad_at r c) := by
  interval_cases r <;> interval_cases c <;> decide

theorem hit_returned (mask row col : Nat) (s : List Nat) (k : Nat)
    (h : (Read_Keypad_hit mask row col s).status = ScanStatus.returned k) :
    k = keypad_at row col := by
  unfold Read_Keypad_hit at h
  simp only at h
  split_ifs at h
  injection h with h
  exact h.symm

theorem cols_returned (row : Nat) (s : List Nat) (k : Nat)
    (h : (Read_Keypad_cols row s).status = ScanStatus.returned k) :
    ∃ c, c < 3 ∧ k = keypad_at row c := by
  unfold Read_Keypad_cols at h
  split at h
  · simp at h
  · split at h
    · exact ⟨0, by decide, hit_returned _ _ _ _ _ h⟩
    · split at h
      · simp at h
      · split at h
        · exact ⟨1, by decide, hit_returned _ _ _ _ _ h⟩
        · split at h
          · simp at h
          · split at h
            · exact ⟨2, by decide, hit_returned _ _ _ _ _ h⟩
            · simp at h

theorem rows_returned (n : Nat) : ∀ (row : Nat) (s : List Nat) (k : Nat), row + n ≤ 4 →
    (Read_Keypad_rows n row s).status = ScanStatus.returned k → keypadRange k := by
  induction n with
  | zero =>
    intro row s k _ h
    simp only [Read_Keypad_rows] at h
    injection h with h
    exact Or.inl h.symm
  | succ n ih =>
    intro row s k hle h
    simp only [Read_Keypad_rows] at h
    split at h
    · exact ih (row + 1) _ k (by omega) h
    · simp only at h
      obtain ⟨c, hc, hk⟩ := cols_returned row s k h
      rw [hk]
      exact keypad_at_range row c (by omega) hc

theorem key_in_range (e : Engine) (k : Nat) (hk : keypadRange k) (hs : e.state ≤ 1) :
    (Get_Expression_key e k).exited = false ∧ (Get_Expression_key e k).eng.state ≤ 1 ∧
    (Get_Expression_key e k).eng.result = e.result := by
  unfold keypadRange at hk
  unfold Get_Expression_key
  split_ifs <;> simp_all
  omega

theorem loop_in_range (ks : List Nat) : ∀ e : Engine, (∀ k ∈ ks, keypadRange k) →
    e.state ≤ 1 →
    (Get_Expression_loop e ks).exited = false ∧ (Get_Expression_loop e ks).eng.state ≤ 1 ∧
    (Get_Expression_loop e ks).eng.result = e.result := by
  induction ks with
  | nil => intro e _ hs; exact ⟨rfl, hs, rfl⟩
  | cons k ks ih =>
    intro e hks hs
    have hk := key_in_range e k (hks k (List.mem_cons_self k ks)) hs
    have hr := ih (Get_Expression_key e k).eng
      (fun x hx => hks x (List.mem_cons_of_mem k hx)) hk.2.1
    rw [loop_cons, hk.1]
    simp only [Bool.false_eq_true, if_false]
    exact ⟨hr.1, hr.2.1, hr.2.2.trans hk.2.2⟩

/-- C18: every value `Read_Keypad` returns is 0 or an entry of the keypad table,
that is a digit, * or #, and never +, - or =.  Hence for every sequence ks of
such values, after each prefix of ks `Get_Expression` is in state 0 or 1 (never 2
or 3), has not left its input loop, and has not changed result. -/
theorem C18_no_operator_keys (samples : List Nat) (g : Globals) (ks : List Nat)
    (hks : ∀ k ∈ ks, keypadRange k) :
    (∀ k, (Read_Keypad samples).status = ScanStatus.returned k →
      (k = 0 ∨ (48 ≤ k ∧ k ≤ 57) ∨ k = 42 ∨ k = 35) ∧ k ≠ 43 ∧ k ≠ 45 ∧ k ≠ 61) ∧
    (∀ n : Nat,
      (Get_Expression g (ks.take n)).eng.state ≤ 1 ∧
      (Get_Expression g (ks.take n)).eng.state ≠ 2 ∧
      (Get_Expression g (ks.take n)).eng.state ≠ 3 ∧
      (Get_Expression g (ks.take n)).exited = false ∧
      (Get_Expression g (ks.take n)).eng.result = g.result) := by
  constructor
  · intro k hk
    have h := rows_returned 4 0 samples k (by decide) hk
    unfold keypadRange at h
    refine ⟨h, ?_, ?_, ?_⟩ <;> omega
  · intro n
    have h := loop_in_range (ks.take n) ⟨⟨0, 0, 0, g.result⟩, 0⟩
      (fun k hk => hks k (List.mem_of_mem_take hk)) (Nat.zero_le 1)
    have he : (Get_Expression g (ks.take n)).eng
        = (Get_Expression_loop ⟨⟨0, 0, 0, g.result⟩, 0⟩ (ks.take n)).eng := rfl
    have hx : (Get_Expression g (ks.take n)).exited
        = (Get_Expression_loop ⟨⟨0, 0, 0, g.result⟩, 0⟩ (ks.take n)).exited := rfl
    rw [he, hx]
    refine ⟨h.2.1, ?_, ?_, h.1, h.2.2⟩ <;> omega

/-- C18 witness: the keys 5, #, 3, *, 7 leave the engine in state 1. -/
theorem C18_no_operator_keys_witness :
    (∀ k ∈ [53, 35, 51, 42, 55], keypadRange k) ∧
    (Get_Expression Globals.init [53, 35, 51, 42, 55]).eng.state ≤ 1 ∧
    (Get_Expression Globals.init [53, 35, 51, 42, 55]).exited = false :=
  ⟨by decide,
   ((C18_no_operator_keys [] Globals.init [53, 35, 51, 42, 55] (by decide)).2 5).1,
   ((C18_no_operator_keys [] Globals.init [53, 35, 51, 42, 55] (by decide)).2 5).2.2.2.1⟩

/-! ## BCD counter -/

theorem pack_eq (a b c d : Nat) (hb : b < 16) (hc : c < 16) (hd : d < 16) :
    (a <<< 12) ||| (b <<< 8) ||| (c <<< 4) ||| d = a * 4096 + b * 256 + c * 16 + d := by
  have s1 : 2 ^ 12 * a + b * 256 = 2 ^ 12 * a ||| b * 256 :=
    Nat.mul_add_lt_is_or (by omega) a
  have s2 : 2 ^ 8 * (16 * a + b) + c * 16 = 2 ^ 8 * (16 * a + b) ||| c * 16 :=
    Nat.mul_add_lt_is_or (by omega) (16 * a + b)
  have s3 : 2 ^ 4 * (256 * a + 16 * b + c) + d = 2 ^ 4 * (256 * a + 16 * b + c) ||| d :=
    Nat.mul_add_lt_is_or (by omega) (256 * a + 16 * b + c)
  have e1 : a <<< 12 = 2 ^ 12 * a := by rw [Nat.shiftLeft_eq, Nat.mul_comm]
  have e2 : b <<< 8 = b * 256 := by rw [Nat.shiftLeft_eq]
  have e3 : c <<< 4 = c * 16 := by rw [Nat.shiftLeft_eq]
  have f1 : 2 ^ 8 * (16 * a + b) = 2 ^ 12 * a + b * 256 := by omega
  have f2 : 2 ^ 4 * (256 * a + 16 * b + c) = 2 ^ 8 * (16 * a + b) + c * 16 := by omega
  rw [e1, e2, e3, ← s1, ← f1, ← s2, ← f2, ← s3]
  omega

theorem digit_units (x : Nat) : (x &&& 0x000F) % 256 = x % 16 := by
  have h : x &&& 15 = x % 16 := Nat.and_pow_two_sub_one_eq_mod x 4
  rw [h]
  omega

theorem digit_tens (x : Nat) : ((x >>> 4) &&& 0x000F) % 256 = x / 16 % 16 := by
  have h : (x >>> 4) &&& 15 = (x >>> 4) % 16 := Nat.and_pow_two_sub_one_eq_mod _ 4
  rw [h, Nat.shiftRight_eq_div_pow]
  omega

theorem digit_hundreds (x : Nat) : ((x >>> 8) &&& 0x000F) % 256 = x / 256 % 16 := by
  have h : (x >>> 8) &&& 15 = (x >>> 8) % 16 := Nat.and_pow_two_sub_one_eq_mod _ 4
  rw [h, Nat.shiftRight_eq_div_pow]
  omega

theorem digit_thousands (x : Nat) : ((x >>> 12) &&& 0x000F) % 256 = x / 4096 % 16 := by
  have h : (x >>> 12) &&& 15 = (x >>> 12) % 16 := Nat.and_pow_two_sub_one_eq_mod _ 4
  rw [h, Nat.shiftRight_eq_div_pow]
  omega

theorem extract_thousands (x : Nat) : extract_bcd_digit x 0 = x / 4096 % 16 :=
  digit_thousands x

theorem extract_hundreds (x : Nat) : extract_bcd_digit x 1 = x / 256 % 16 :=
  digit_hundreds x

theorem extract_tens (x : Nat) : extract_bcd_digit x 2 = x / 16 % 16 :=
  digit_tens x

theorem extract_units (x : Nat) : extract_bcd_digit x 3 = x % 16 := by
  have h := digit_units x
  simpa [extract_bcd_digit] using h


theorem pack_thousands (a b c d : Nat) (ha : a < 16) (hb : b < 16) (hc : c < 16)
    (hd : d < 16) : bcdPack a b c d / 4096 % 16 = a := by
  unfold bcdPack
  omega

theorem pack_hundreds (a b c d : Nat) (hb : b < 16) (hc : c < 16)
    (hd : d < 16) : bcdPack a b c d / 256 % 16 = b := by
  unfold bcdPack
  omega

theorem pack_tens (a b c d : Nat) (hc : c < 16) (hd : d < 16) :
    bcdPack a b c d / 16 % 16 = c := by
  unfold bcdPack
  omega

theorem pack_units (a b c d : Nat) (hd : d < 16) : bcdPack a b c d % 16 = d := by
  unfold bcdPack
  omega

theorem bcdValid_pack (a b c d : Nat) (ha : a < 16) (hb : b < 16) (hc : c < 16)
    (hd : d < 16) : bcdValid (bcdPack a b c d) ↔ a ≤ 9 ∧ b ≤ 9 ∧ c ≤ 9 ∧ d ≤ 9 := by
  have hlt : bcdPack a b c d < 65536 := by
    unfold bcdPack
    omega
  unfold bcdValid
  rw [extract_thousands, extract_hundreds, extract_tens, extract_units,
    pack_thousands a b c d ha hb hc hd, pack_hundreds a b c d hb hc hd,
    pack_tens a b c d hc hd, pack_units a b c d hd]
  constructor
  · intro h
    exact h.2
  · intro h
    exact ⟨hlt, h⟩

theorem bcdValue_pack (a b c d : Nat) (ha : a < 16) (hb : b < 16) (hc : c < 16)
    (hd : d < 16) : bcdValue (bcdPack a b c d) = 1000 * a + 100 * b + 10 * c + d := by
  unfold bcdValue
  rw [extract_thousands, extract_hundreds, extract_tens, extract_units,
    pack_thousands a b c d ha hb hc hd, pack_hundreds a b c d hb hc hd,
    pack_tens a b c d hc hd, pack_units a b c d hd]

theorem bcdValid_digits (x : Nat) (hv : bcdValid x) :
    ∃ a b c d : Nat, a ≤ 9 ∧ b ≤ 9 ∧ c ≤ 9 ∧ d ≤ 9 ∧ x = bcdPack a b c d := by
  unfold bcdValid at hv
  rw [extract_thousands, extract_hundreds, extract_tens, extract_units] at hv
  refine ⟨x / 4096 % 16, x / 256 % 16, x / 16 % 16, x % 16, hv.2.1, hv.2.2.1, hv.2.2.2.1,
    hv.2.2.2.2, ?_⟩
  have hx := hv.1
  unfold bcdPack
  omega

/-- One step up on a value given by its digits. -/
theorem update_up_pack (a b c d : Nat) (ha : a ≤ 9) (hb : b ≤ 9) (hc : c ≤ 9) (hd : d ≤ 9) :
    update_bcd_counter 1 (bcdPack a b c d)
      = if d + 1 > 9 then
          if c + 1 > 9 then
            if b + 1 > 9 then
              if a + 1 > 9 then bcdPack 0 0 0 0 else bcdPack (a + 1) 0 0 0
            else bcdPack a (b + 1) 0 0
          else bcdPack a b (c + 1) 0
        else bcdPack a b c (d + 1) := by
  have m0 : (d + 1) % 256 = d + 1 := by omega
  have m1 : (c + 1) % 256 = c + 1 := by omega
  have m2 : (b + 1) % 256 = b + 1 := by omega
  have m3 : (a + 1) % 256 = a + 1 := by omega
  unfold update_bcd_counter
  simp only [if_true, digit_units, Nat.shiftRight_eq_div_pow, Nat.reducePow,
    pack_thousands a b c d (by omega) (by omega) (by omega) (by omega),
    pack_hundreds a b c d (by omega) (by omega) (by omega),
    pack_tens a b c d (by omega) (by omega), pack_units a b c d (by omega), m0, m1, m2, m3]
  split_ifs <;> dsimp only <;>
    (try rw [pack_eq _ _ _ _ (by omega) (by omega) (by omega)]) <;>
    unfold bcdPack <;> omega

/-- One step down on a value given by its digits. -/
theorem update_down_pack (a b c d : Nat) (ha : a ≤ 9) (hb : b ≤ 9) (hc : c ≤ 9)
    (hd : d ≤ 9) :
    update_bcd_counter 0 (bcdPack a b c d)
      = if d = 0 then
          if c = 0 then
            if b = 0 then
              if a = 0 then bcdPack 9 9 9 9 else bcdPack (a - 1) 9 9 9
            else bcdPack a (b - 1) 9 9
          else bcdPack a b (c - 1) 9
        else bcdPack a b c (d - 1) := by
  have z : ¬ ((0 : Nat) = 1) := by decide
  unfold update_bcd_counter
  simp only [if_neg z, digit_units, Nat.shiftRight_eq_div_pow, Nat.reducePow,
    pack_thousands a b c d (by omega) (by omega) (by omega) (by omega),
    pack_hundreds a b c d (by omega) (by omega) (by omega),
    pack_tens a b c d (by omega) (by omega), pack_units a b c d (by omega)]
  split_ifs <;> dsimp only <;>
    (try rw [pack_eq _ _ _ _ (by omega) (by omega) (by omega)]) <;>
    unfold bcdPack <;> omega

theorem update_up_valid (x : Nat) (hv : bcdValid x) :
    bcdValid (update_bcd_counter 1 x) ∧
    bcdValue (update_bcd_counter 1 x) = (bcdValue x + 1) % 10000 := by
  obtain ⟨a, b, c, d, ha, hb, hc, hd, rfl⟩ := bcdValid_digits x hv
  rw [update_up_pack a b c d ha hb hc hd,
    bcdValue_pack a b c d (by omega) (by omega) (by omega) (by omega)]
  split_ifs <;>
    rw [bcdValid_pack _ _ _ _ (by omega) (by omega) (by omega) (by omega),
      bcdValue_pack _ _ _ _ (by omega) (by omega) (by omega) (by omega)] <;>
    omega

theorem update_down_valid (x : Nat) (hv : bcdValid x) :
    bcdValid (update_bcd_counter 0 x) ∧
    bcdValue (update_bcd_counter 0 x) = (bcdValue x + 9999) % 10000 := by
  obtain ⟨a, b, c, d, ha, hb, hc, hd, rfl⟩ := bcdValid_digits x hv
  rw [update_down_pack a b c d ha hb hc hd,
    bcdValue_pack a b c d (by omega) (by omega) (by omega) (by omega)]
  split_ifs <;>
    rw [bcdValid_pack _ _ _ _ (by omega) (by omega) (by omega) (by omega),
      bcdValue_pack _ _ _ _ (by omega) (by omega) (by omega) (by omega)] <;>
    omega

theorem update_down_then_up (x : Nat) (hv : bcdValid x) :
    update_bcd_counter 1 (update_bcd_counter 0 x) = x := by
  obtain ⟨a, b, c, d, ha, hb, hc, hd, rfl⟩ := bcdValid_digits x hv
  rw [update_down_pack a b c d ha hb hc hd]
  split_ifs <;>
    rw [update_up_pack _ _ _ _ (by omega) (by omega) (by omega) (by omega)] <;>
    split_ifs <;> unfold bcdPack <;> omega

theorem update_up_then_down (x : Nat) (hv : bcdValid x) :
    update_bcd_counter 0 (update_bcd_counter 1 x) = x := by
  obtain ⟨a, b, c, d, ha, hb, hc, hd, rfl⟩ := bcdValid_digits x hv
  rw [update_up_pack a b c d ha hb hc hd]
  split_ifs
  · rw [update_down_pack 0 0 0 0 (by omega) (by omega) (by omega) (by omega)]
    unfold bcdPack
    simp only [if_true]
    omega
  · rw [update_down_pack (a + 1) 0 0 0 (by omega) (by omega) (by omega) (by omega)]
    unfold bcdPack
    simp only [if_true, Nat.add_one_ne_zero, if_false]
    omega
  · rw [update_down_pack a (b + 1) 0 0 (by omega) (by omega) (by omega) (by omega)]
    unfold bcdPack
    simp only [if_true, Nat.add_one_ne_zero, if_false]
    omega
  · rw [update_down_pack a b (c + 1) 0 (by omega) (by omega) (by omega) (by omega)]
    unfold bcdPack
    simp only [if_true, Nat.add_one_ne_zero, if_false]
    omega
  · rw [update_down_pack a b c (d + 1) (by omega) (by omega) (by omega) (by omega)]
    unfold bcdPack
    simp only [Nat.add_one_ne_zero, if_false]
    omega

/-- C19: counting up (counting_direction = 1), for every valid 4-digit packed BCD
value x of bcd_counter, encoding the decimal number n = bcdValue x in 0..9999,
`update_bcd_counter` leaves a valid packed BCD value that encodes
(n + 1) mod 10000; in particular 0x9999 becomes 0x0000 and 0x0199 becomes
0x0200. -/
theorem C19_bcd_count_up (x : Nat) (hv : bcdValid x) :
    bcdValue x ≤ 9999 ∧
    bcdValid (update_bcd_counter 1 x) ∧
    bcdValue (update_bcd_counter 1 x) = (bcdValue x + 1) % 10000 ∧
    update_bcd_counter 1 0x9999 = 0x0000 ∧
    update_bcd_counter 1 0x0199 = 0x0200 := by
  have h := update_up_valid x hv
  refine ⟨?_, h.1, h.2, by decide, by decide⟩
  obtain ⟨a, b, c, d, ha, hb, hc, hd, rfl⟩ := bcdValid_digits x hv
  rw [bcdValue_pack a b c d (by omega) (by omega) (by omega) (by omega)]
  omega

/-- C19 witness: 0x1299 encodes 1299 and steps to 0x1300, which encodes 1300. -/
theorem C19_bcd_count_up_witness :
    bcdValid 0x1299 ∧ bcdValid (update_bcd_counter 1 0x1299) ∧
    bcdValue (update_bcd_counter 1 0x1299) = (bcdValue 0x1299 + 1) % 10000 :=
  ⟨by decide, (C19_bcd_count_up 0x1299 (by decide)).2.1,
   (C19_bcd_count_up 0x1299 (by decide)).2.2.1⟩

/-- C20: counting down (counting_direction = 0), for every valid 4-digit packed
BCD value x of bcd_counter, encoding n = bcdValue x, `update_bcd_counter` leaves a
valid packed BCD value that encodes (n - 1) mod 10000, with 0x0000 wrapping to
0x9999; and one step down followed by one step up, or one step up followed by
one step down, gives back x. -/
theorem C20_bcd_count_down (x : Nat) (hv : bcdValid x) :
    bcdValid (update_bcd_counter 0 x) ∧
    (bcdValue (update_bcd_counter 0 x) : Int) = ((bcdValue x : Int) - 1) % 10000 ∧
    update_bcd_counter 0 0x0000 = 0x9999 ∧
    update_bcd_counter 1 (update_bcd_counter 0 x) = x ∧
    update_bcd_counter 0 (update_bcd_counter 1 x) = x := by
  have h := update_down_valid x hv
  refine ⟨h.1, ?_, by decide, update_down_then_up x hv, update_up_then_down x hv⟩
  rw [h.2]
  omega

/-- C20 witness: 0x1300 steps down to 0x1299 and back up to 0x1300. -/
theorem C20_bcd_count_down_witness :
    bcdValid 0x1300 ∧ bcdValid (update_bcd_counter 0 0x1300) ∧
    update_bcd_counter 1 (update_bcd_counter 0 0x1300) = 0x1300 :=
  ⟨by decide, (C20_bcd_count_down 0x1300 (by decide)).1,
   (C20_bcd_count_down 0x1300 (by decide)).2.2.2.1⟩

/-! ## Ring counter and button -/

theorem ring_step_pow (k : Nat) (hk : k < 8) :
    main_ring_step (2 ^ k) = 2 ^ ((k + 1) % 8) := by
  interval_cases k <;> decide

theorem ring_counter_after_eq (n : Nat) : ring_counter_after n = 2 ^ (n % 8) := by
  induction n with
  | zero => rfl
  | succ n ih =>
    have hk : n % 8 < 8 := Nat.mod_lt n (by decide)
    have h1 : (n + 1) % 8 = (n % 8 + 1) % 8 := by omega
    rw [ring_counter_after, ih, ring_step_pow (n % 8) hk, h1]

theorem bitsSet_pow (k : Nat) (hk : k < 8) :
    bitsSet (2 ^ k) = [k] ∧ bitsSet (2 ^ (4 + k)) = [4 + k] ∧
    (2 ^ k <<< 4) &&& LED_MASK = 2 ^ (4 + k) := by
  interval_cases k <;> decide

/-- C21: starting from ring_counter = 0x01, after any number n of button presses
the shift step of `main` leaves ring_counter = 2^(n mod 8), a value with exactly
one bit set (bit n mod 8); the value is 0x01 again exactly when n is a multiple
of 8, so it returns after 8 presses and after no smaller positive number; and
`update_leds` clears the LED mask and then sets (ring_counter << 4) & 0xFF0, which
has exactly one bit set, bit 4 + (n mod 8), one of the bits 4..11. -/
theorem C21_ring_counter (n : Nat) :
    ring_counter_after n = 2 ^ (n % 8) ∧
    bitsSet (ring_counter_after n) = [n % 8] ∧
    (ring_counter_after n = 0x01 ↔ n % 8 = 0) ∧
    ring_counter_after 8 = 0x01 ∧
    (∀ m, 0 < m → m < 8 → ring_counter_after m ≠ 0x01) ∧
    update_leds (ring_counter_after n)
      = [PortEv.clr 0xFF0, PortEv.set ((ring_counter_after n <<< 4) &&& 0xFF0)] ∧
    bitsSet ((ring_counter_after n <<< 4) &&& 0xFF0) = [4 + n % 8] ∧
    4 ≤ 4 + n % 8 ∧ 4 + n % 8 ≤ 11 := by
  have hk : n % 8 < 8 := Nat.mod_lt n (by decide)
  have hb := bitsSet_pow (n % 8) hk
  have hiff : ∀ k, k < 8 → ((2 : Nat) ^ k = 1 ↔ k = 0) := by
    intro k hk8
    interval_cases k <;> decide
  refine ⟨ring_counter_after_eq n, ?_, ?_, by decide, ?_, rfl, ?_, by omega, by omega⟩
  · rw [ring_counter_after_eq]
    exact hb.1
  · rw [ring_counter_after_eq]
    exact hiff (n % 8) hk
  · intro m h0 h8
    interval_cases m <;> decide
  · rw [ring_counter_after_eq]
    have h := hb.2.2
    unfold LED_MASK at h
    rw [h]
    exact hb.2.1

/-- C22: `is_button_pressed`, with s1 the first sample of the switch pin and s2
the sample taken after the 20 ms delay when an edge is detected: it returns 1 if
and only if prev_switch_state was 1 and both samples read low; a low first sample
followed by a high second one returns 0; with prev_switch_state = 0 it returns 0
and takes only the first sample, whatever is read; and on return
prev_switch_state is the level of the last sample taken (the second one exactly
when prev_switch_state was 1 and the first sample read low). -/
theorem C22_button_debounce (prev s1 s2 : Nat) :
    ((is_button_pressed prev s1 s2).pressed = 1 ↔
      prev = 1 ∧ switch_level s1 = 0 ∧ switch_level s2 = 0) ∧
    ((is_button_pressed prev s1 s2).pressed = 0 ∨ (is_button_pressed prev s1 s2).pressed = 1) ∧
    (prev = 1 → switch_level s1 = 0 → switch_level s2 ≠ 0 →
      (is_button_pressed prev s1 s2).pressed = 0) ∧
    (prev = 0 → (is_button_pressed prev s1 s2).pressed = 0 ∧
      (is_button_pressed prev s1 s2).trace = [SwEv.read s1]) ∧
    (prev = 1 ∧ switch_level s1 = 0 →
      (is_button_pressed prev s1 s2).trace = [SwEv.read s1, SwEv.delay 20, SwEv.read s2] ∧
      (is_button_pressed prev s1 s2).prev_switch_state = switch_level s2) ∧
    (¬ (prev = 1 ∧ switch_level s1 = 0) →
      (is_button_pressed prev s1 s2).trace = [SwEv.read s1] ∧
      (is_button_pressed prev s1 s2).prev_switch_state = switch_level s1) := by
  unfold is_button_pressed
  by_cases h : prev = 1 ∧ switch_level s1 = 0
  · by_cases h2 : switch_level s2 = 0
    · simp [h, h2]
    · simp [h, h2]
  · rw [if_neg h]
    refine ⟨?_, Or.inl rfl, ?_, ?_, ?_, ?_⟩
    · constructor
      · intro hc
        cases hc
      · intro hc
        exact absurd ⟨hc.1, hc.2.1⟩ h
    · intro h1 h2 _
      exact absurd ⟨h1, h2⟩ h
    · intro _
      exact ⟨rfl, rfl⟩
    · intro hc
      exact absurd hc h
    · intro _
      exact ⟨rfl, rfl⟩

/-! ## 4-bit LCD programs -/

/-- With Enable low, a store to `FIOPIN` fixes all three lines, so what follows
does not depend on the prior levels. -/
theorem nibWrites_pin (p : NibBus) (hp : p.en = false) (v : Nat) (t : List PortEv) :
    nibWrites p (PortEv.pin v :: t) = nibWrites NibBus.idle (PortEv.pin v :: t) := by
  simp [nibWrites, NibBus.step, hp, NibBus.idle]

theorem nibWrites_delay_cons (p : NibBus) (r : Nat) (t : List PortEv) :
    nibWrites p (PortEv.delay r :: t) = nibWrites p t := by
  simp [nibWrites, NibBus.step]

/-- The stores of `lcd_send_nibble` fix all three lines before the latch, so what
the display receives does not depend on the prior levels. -/
theorem nibWrites_send_nibble (p : NibBus) (flag1 nib : Nat) (t : List PortEv) :
    nibWrites p (lcd_send_nibble flag1 nib ++ t)
      = nibWrites NibBus.idle (lcd_send_nibble flag1 nib ++ t) := by
  have d23 : (DT_CTRL >>> 23) % 16 = 15 := by decide
  have d27 : Nat.testBit DT_CTRL 27 = false := by decide
  have d28 : Nat.testBit DT_CTRL 28 = false := by decide
  have x15 : (15 : Nat) ^^^ 15 = 0 := by decide
  by_cases hf : flag1 = 0
  · have r27 : Nat.testBit RS_CTRL 27 = true := by decide
    have r28 : Nat.testBit RS_CTRL 28 = false := by decide
    have e28 : Nat.testBit EN_CTRL 28 = true := by decide
    simp [lcd_send_nibble, delay_lcd, nibWrites, NibBus.step, NibBus.idle, hf, d23, d27, d28,
      x15, r27, r28, e28]
  · have r27 : Nat.testBit RS_CTRL 27 = true := by decide
    have r28 : Nat.testBit RS_CTRL 28 = false := by decide
    have e28 : Nat.testBit EN_CTRL 28 = true := by decide
    simp [lcd_send_nibble, delay_lcd, nibWrites, NibBus.step, NibBus.idle, hf, d23, d27, d28,
      x15, r27, r28, e28]

theorem lcd_main_init_idle :
    nibWrites NibBus.idle lcd_main_init
      = [(false, 3), (false, 3), (false, 3), (false, 2), (false, 2), (false, 8), (false, 0),
         (false, 12), (false, 0), (false, 6), (false, 0), (false, 1), (false, 8),
         (false, 0)] := by
  decide

theorem lcd_init_idle :
    nibWrites NibBus.idle lcd_init
      = [(false, 3), (false, 3), (false, 3), (false, 2), (false, 2), (false, 8), (false, 0),
         (false, 12), (false, 0), (false, 6), (false, 0), (false, 1)] ∧
    nibWrites NibBus.idle (lcd_init ++ lcd_cmd 0x80)
      = [(false, 3), (false, 3), (false, 3), (false, 2), (false, 2), (false, 8), (false, 0),
         (false, 12), (false, 0), (false, 6), (false, 0), (false, 1), (false, 8),
         (false, 0)] := by
  refine ⟨by decide, by decide⟩

set_option maxRecDepth 200000 in
theorem lcd_write_idle :
    ∀ temp1, temp1 < 256 →
      nibWrites NibBus.idle (lcd_write 0 temp1)
        = (if temp1 = 0x30 ∨ temp1 = 0x20 then [(false, temp1 / 16 % 16)]
           else [(false, temp1 / 16 % 16), (false, temp1 % 16)]) ∧
      nibWrites NibBus.idle (lcd_write 1 temp1)
        = [(true, temp1 / 16 % 16), (true, temp1 % 16)] := by
  decide

theorem nibWrites_lcd_write (p : NibBus) (hp : p.en = false) (flag1 temp1 : Nat)
    (t : List PortEv) :
    nibWrites p (lcd_write flag1 temp1 ++ t)
      = nibWrites NibBus.idle (lcd_write flag1 temp1 ++ t) := by
  simp only [lcd_write, port_write, List.cons_append, List.append_assoc]
  exact nibWrites_pin p hp _ _

theorem nibWrites_lcd_init (p : NibBus) (t : List PortEv) :
    nibWrites p (lcd_init ++ t) = nibWrites NibBus.idle (lcd_init ++ t) := by
  have key : ∀ q : NibBus, nibWrites q (lcd_init ++ t)
      = nibWrites NibBus.idle (lcd_send_nibble 0 0x03 ++ (delay_lcd 50000 ++
          (lcd_send_nibble 0 0x03 ++ (delay_lcd 50000 ++
          (lcd_send_nibble 0 0x03 ++ (delay_lcd 50000 ++
          (lcd_send_nibble 0 0x02 ++ (delay_lcd 50000 ++
          (lcd_cmd 0x28 ++ (lcd_cmd 0x0C ++ (lcd_cmd 0x06 ++ (lcd_cmd 0x01 ++
          (delay_lcd 50000 ++ t))))))))))))) := by
    intro q
    have e : lcd_init ++ t
        = PortEv.delay 500000 :: (lcd_send_nibble 0 0x03 ++ (delay_lcd 50000 ++
          (lcd_send_nibble 0 0x03 ++ (delay_lcd 50000 ++
          (lcd_send_nibble 0 0x03 ++ (delay_lcd 50000 ++
          (lcd_send_nibble 0 0x02 ++ (delay_lcd 50000 ++
          (lcd_cmd 0x28 ++ (lcd_cmd 0x0C ++ (lcd_cmd 0x06 ++ (lcd_cmd 0x01 ++
          (delay_lcd 50000 ++ t))))))))))))) := by
      simp only [lcd_init, List.append_assoc]
      rfl
    rw [e, nibWrites_delay_cons, nibWrites_send_nibble]
  rw [key p, key NibBus.idle]

theorem nibWrites_lcd_cmd (p : NibBus) (cmd : Nat) (t : List PortEv) :
    nibWrites p (lcd_cmd cmd ++ t) = nibWrites NibBus.idle (lcd_cmd cmd ++ t) := by
  simp only [lcd_cmd, List.append_assoc]
  exact nibWrites_send_nibble p 0 _ _

/-- The message loop of q29.c passes the characters of its `msg` to `lcd_data`
in order, from the first one on and without the terminating NUL. -/
theorem q29_main_send_msg :
    q29_main_send msg_q29 = (cstr "WELCOME").flatMap (fun c => lcd_data c) := by
  decide

/-- C23 (evaluation of the program): with msg = "WELCOME " the message loop of
`main` in lcd.c calls `lcd_write` in data mode eight times, for the characters
E, L, C, O, M, E, blank and then the terminating NUL: the first character W is
never sent and the NUL is.  After the fourteen nibbles of the initialisation the
display receives, with Register-Select high, the nibble pairs of these eight
bytes. -/
theorem C23_lcd_message_skips_first :
    lcd_main_send msg_lcd = (cstr "ELCOME " ++ [0]).flatMap (fun c => lcd_write 1 c) ∧
    nibWrites NibBus.idle (lcd_main_init ++ lcd_main_send msg_lcd)
      = [(false, 3), (false, 3), (false, 3), (false, 2), (false, 2), (false, 8), (false, 0),
         (false, 12), (false, 0), (false, 6), (false, 0), (false, 1), (false, 8),
         (false, 0)] ++
        [(true, 4), (true, 5), (true, 4), (true, 12), (true, 4), (true, 3), (true, 4),
         (true, 15), (true, 4), (true, 13), (true, 4), (true, 5), (true, 2), (true, 0),
         (true, 0), (true, 0)] := by
  refine ⟨by decide, by decide⟩

/-- C24: the two 4-bit initialisations agree.  From any line levels with Enable
low, the (Register-Select, 4-bit value) pairs latched while lcd.c runs `lcd_write`
over init_command equal those latched during `lcd_init` of q29.c followed by the
two nibbles of the command 0x80: 3, 3, 3, 2, then 2 8, 0 C, 0 6, 0 1, then 8 0,
all with Register-Select low.  In lcd.c a command byte is sent as its high nibble
only when it is 0x30 or 0x20, and as high nibble then low nibble otherwise. -/
theorem C24_init_sequences_agree (p : NibBus) (hp : p.en = false) :
    nibWrites p lcd_main_init = nibWrites p lcd_init ++ nibWrites p (lcd_cmd 0x80) ∧
    nibWrites p lcd_main_init = nibWrites p (lcd_init ++ lcd_cmd 0x80) ∧
    nibWrites p lcd_init
      = [(false, 3), (false, 3), (false, 3), (false, 2), (false, 2), (false, 8), (false, 0),
         (false, 12), (false, 0), (false, 6), (false, 0), (false, 1)] ∧
    nibWrites p (lcd_cmd 0x80) = [(false, 8), (false, 0)] ∧
    (∀ temp1, temp1 < 256 →
      nibWrites p (lcd_write 0 temp1)
        = if temp1 = 0x30 ∨ temp1 = 0x20 then [(false, temp1 / 16 % 16)]
          else [(false, temp1 / 16 % 16), (false, temp1 % 16)]) := by
  have h1 : nibWrites p lcd_main_init = nibWrites NibBus.idle lcd_main_init := by
    have e : lcd_main_init
        = lcd_write 0 0x30 ++ [0x30, 0x30, 0x20, 0x28, 0x0c, 0x06, 0x01, 0x80].flatMap
            (fun temp1 => lcd_write 0 temp1) := rfl
    rw [e]
    exact nibWrites_lcd_write p hp 0 0x30 _
  have h2 : nibWrites p lcd_init = nibWrites NibBus.idle lcd_init := by
    have h := nibWrites_lcd_init p []
    simpa using h
  have h3 : nibWrites p (lcd_init ++ lcd_cmd 0x80)
      = nibWrites NibBus.idle (lcd_init ++ lcd_cmd 0x80) := nibWrites_lcd_init p _
  have h4 : nibWrites p (lcd_cmd 0x80) = nibWrites NibBus.idle (lcd_cmd 0x80) := by
    have h := nibWrites_lcd_cmd p 0x80 []
    simpa using h
  have h5 : nibWrites NibBus.idle (lcd_cmd 0x80) = [(false, 8), (false, 0)] := by decide
  refine ⟨?_, ?_, ?_, ?_, ?_⟩
  · rw [h1, h2, h4, lcd_main_init_idle, lcd_init_idle.1, h5]
    rfl
  · rw [h1, h3, lcd_main_init_idle, lcd_init_idle.2]
  · rw [h2, lcd_init_idle.1]
  · rw [h4, h5]
  · intro temp1 ht
    have h := nibWrites_lcd_write p hp 0 temp1 []
    simp only [List.append_nil] at h
    rw [h]
    exact (lcd_write_idle temp1 ht).1

/-- C24 witness: from the lines at reset. -/
theorem C24_init_sequences_agree_witness :
    NibBus.idle.en = false ∧
    nibWrites NibBus.idle lcd_main_init
      = nibWrites NibBus.idle lcd_init ++ nibWrites NibBus.idle (lcd_cmd 0x80) ∧
    nibWrites NibBus.idle (lcd_write 0 0x28) = [(false, 2), (false, 8)] :=
  ⟨rfl, (C24_init_sequences_agree NibBus.idle rfl).1,
   (C24_init_sequences_agree NibBus.idle rfl).2.2.2.2 0x28 (by decide)⟩

/-! ## Signed rendering and single-sample detection -/

theorem rows_skip_tested (k : Nat) : ∀ (n row : Nat) (idle s : List Nat),
    idle.length = 3 * k → (∀ i v, idle[i]? = some v → v &&& colMask (i % 3) ≠ 0) →
    (Read_Keypad_rows (k + n) row (idle ++ s)).status
      = (Read_Keypad_rows n (row + k) s).status ∧
    (Read_Keypad_rows (k + n) row (idle ++ s)).rest
      = (Read_Keypad_rows n (row + k) s).rest := by
  induction k with
  | zero =>
    intro n row idle s hlen _
    have : idle = [] := List.length_eq_zero.mp (by simpa using hlen)
    subst this
    simp
  | succ k ih =>
    intro n row idle s hlen hall
    match idle, hlen, hall with
    | v1 :: v2 :: v3 :: tl, hlen, hall =>
      have hl : tl.length = 3 * k := by
        simp only [List.length_cons] at hlen
        omega
      have a1 : v1 &&& COL1 ≠ 0 := hall 0 v1 rfl
      have a2 : v2 &&& COL2 ≠ 0 := hall 1 v2 rfl
      have a3 : v3 &&& COL3 ≠ 0 := hall 2 v3 (by simp)
      have htl : ∀ i v, tl[i]? = some v → v &&& colMask (i % 3) ≠ 0 := by
        intro i v hv
        have h3 := hall (i + 3) v (by simpa using hv)
        rwa [Nat.add_mod_right] at h3
      have e : k + 1 + n = (k + n) + 1 := by omega
      have e2 : row + (k + 1) = (row + 1) + k := by omega
      rw [e, e2]
      have hs := rows_succ_idle (k + n) row v1 v2 v3 (tl ++ s) a1 a2 a3
      have hi := ih n (row + 1) tl s hl htl
      simp only [List.cons_append]
      exact ⟨hs.1.trans hi.1, hs.2.trans hi.2⟩
    | [], hlen, _ => simp at hlen
    | [_], hlen, _ => simp only [List.length_cons, List.length_nil] at hlen; omega
    | [_, _], hlen, _ => simp only [List.length_cons, List.length_nil] at hlen; omega

theorem Read_Keypad_detect_tested (r c : Nat) (hr : r < 4) (hc : c < 3)
    (idle before held : List Nat) (g rel : Nat) (rest : List Nat)
    (hlen : idle.length = 3 * r)
    (hidle : ∀ i v, idle[i]? = some v → v &&& colMask (i % 3) ≠ 0)
    (hblen : before.length = c)
    (hbefore : ∀ j v, before[j]? = some v → v &&& colMask (j % 3) ≠ 0)
    (hg : g &&& colMask c = 0) (hheld : ∀ v ∈ held, v &&& colMask c = 0)
    (hrel : rel &&& colMask c ≠ 0) :
    (Read_Keypad (idle ++ (before ++ g :: (held ++ rel :: rest)))).status
      = ScanStatus.returned (keypad_at r c) ∧
    (Read_Keypad (idle ++ (before ++ g :: (held ++ rel :: rest)))).rest = rest := by
  have e4 : 4 = r + ((3 - r) + 1) := by omega
  unfold Read_Keypad
  rw [e4]
  have hs := rows_skip_tested r ((3 - r) + 1) 0 idle (before ++ g :: (held ++ rel :: rest))
    hlen hidle
  rw [hs.1, hs.2, Nat.zero_add]
  match c, hc, before, hblen, hbefore, hg, hheld, hrel with
  | 0, _, [], _, _, hg, hheld, hrel =>
    exact rows_hit0 (3 - r) r g held rel rest hg hheld hrel
  | 1, _, [a], _, hbefore, hg, hheld, hrel =>
    have ha : a &&& COL1 ≠ 0 := hbefore 0 a rfl
    exact rows_hit1 (3 - r) r a g held rel rest ha hg hheld hrel
  | 2, _, [a, b], _, hbefore, hg, hheld, hrel =>
    have ha : a &&& COL1 ≠ 0 := hbefore 0 a rfl
    have hb : b &&& COL2 ≠ 0 := hbefore 1 b rfl
    exact rows_hit2 (3 - r) r a b g held rel rest ha hb hg hheld hrel

theorem hit_not_noKey (mask row col : Nat) (s : List Nat) :
    (Read_Keypad_hit mask row col s).status ≠ ScanStatus.noKey := by
  unfold Read_Keypad_hit
  simp only
  split_ifs <;> simp

theorem cols_noKey (row : Nat) (s : List Nat)
    (h : (Read_Keypad_cols row s).status = ScanStatus.noKey) :
    ∃ v1 v2 v3 s3, s = v1 :: v2 :: v3 :: s3 ∧ v1 &&& COL1 ≠ 0 ∧ v2 &&& COL2 ≠ 0 ∧
      v3 &&& COL3 ≠ 0 ∧ (Read_Keypad_cols row s).rest = s3 := by
  unfold Read_Keypad_cols at h ⊢
  split at h
  · simp at h
  · rename_i v1 s1
    split at h
    · exact absurd h (hit_not_noKey _ _ _ _)
    · rename_i h1
      split at h
      · simp at h
      · rename_i v2 s2
        split at h
        · exact absurd h (hit_not_noKey _ _ _ _)
        · rename_i h2
          split at h
          · simp at h
          · rename_i v3 s3
            split at h
            · exact absurd h (hit_not_noKey _ _ _ _)
            · rename_i h3
              refine ⟨v1, v2, v3, s3, rfl, h1, h2, h3, ?_⟩
              simp [h1, h2, h3]

theorem rows_returned_zero (n : Nat) : ∀ (row : Nat) (s : List Nat), row + n ≤ 4 →
    (Read_Keypad_rows n row s).status = ScanStatus.returned 0 →
    3 * n ≤ s.length ∧ ∀ i v, i < 3 * n → s[i]? = some v → v &&& colMask (i % 3) ≠ 0 := by
  induction n with
  | zero =>
    intro row s _ _
    exact ⟨Nat.zero_le _, fun i v hi _ => absurd hi (by omega)⟩
  | succ n ih =>
    intro row s hle h
    simp only [Read_Keypad_rows] at h
    split at h
    · rename_i hno
      obtain ⟨v1, v2, v3, s3, hs, h1, h2, h3, hrest⟩ := cols_noKey row s hno
      rw [hrest] at h
      have hi := ih (row + 1) s3 (by omega) h
      subst hs
      refine ⟨by simp only [List.length_cons]; omega, ?_⟩
      intro i v hlt hv
      match i, hlt, hv with
      | 0, _, hv =>
        have : v1 = v := by simpa using hv
        subst this
        exact h1
      | 1, _, hv =>
        have : v2 = v := by simpa using hv
        subst this
        exact h2
      | 2, _, hv =>
        have : v3 = v := by simpa using hv
        subst this
        exact h3
      | j + 3, hlt, hv =>
        have hv2 : s3[j]? = some v := by simpa using hv
        have := hi.2 j v (by omega) hv2
        rwa [Nat.add_mod_right]
    · simp only at h
      obtain ⟨c, hc, hk⟩ := cols_returned row s 0 h
      exact absurd hk.symm (keypad_at_ne_zero row c (by omega) hc)

/-- C11 (amended): `Read_Keypad` takes no confirming re-sample.  For every row r
in 0..3 and column c in 0..2: when each of the 3r + c samples before the detecting
one reads high on the column it is tested against (sample i is tested against
column i mod 3), the detecting sample reads column c low and the very next sample
reads it high again, the call returns the table entry keypad[r][c], which is not
0 -- the second sample only ends the wait for release.  And for every sequence of
samples, `Read_Keypad` returns 0 exactly when it takes twelve samples and each
reads high on its tested column, that is when no tested column reads low in any
of the four row scans. -/
theorem C11_glitch_returns_key (r c : Nat) (hr : r < 4) (hc : c < 3)
    (before : List Nat) (g h : Nat) (rest : List Nat)
    (hlen : before.length = 3 * r + c)
    (hbefore : ∀ i v, before[i]? = some v → v &&& colMask (i % 3) ≠ 0)
    (hg : g &&& colMask c = 0) (hh : h &&& colMask c ≠ 0) :
    (Read_Keypad (before ++ g :: h :: rest)).status
      = ScanStatus.returned (keypad_at r c) ∧
    (Read_Keypad (before ++ g :: h :: rest)).rest = rest ∧
    keypad_at r c ≠ 0 ∧
    (∀ samples : List Nat,
      (Read_Keypad samples).status = ScanStatus.returned 0 ↔
        12 ≤ samples.length ∧
        ∀ i v, i < 12 → samples[i]? = some v → v &&& colMask (i % 3) ≠ 0) := by
  have h1 : (before.take (3 * r)).length = 3 * r := by
    rw [List.length_take]
    omega
  have h2 : (before.drop (3 * r)).length = c := by
    rw [List.length_drop]
    omega
  have h3 : ∀ i v, (before.take (3 * r))[i]? = some v → v &&& colMask (i % 3) ≠ 0 := by
    intro i v hv
    rw [List.getElem?_take] at hv
    split at hv
    · exact hbefore i v hv
    · cases hv
  have h4 : ∀ j v, (before.drop (3 * r))[j]? = some v → v &&& colMask (j % 3) ≠ 0 := by
    intro j v hv
    rw [List.getElem?_drop] at hv
    have hm : (3 * r + j) % 3 = j % 3 := by omega
    have := hbefore (3 * r + j) v hv
    rwa [hm] at this
  have hd := Read_Keypad_detect_tested r c hr hc (before.take (3 * r)) (before.drop (3 * r))
    [] g h rest h1 h3 h2 h4 hg (by simp) hh
  have e : before ++ g :: h :: rest
      = before.take (3 * r) ++ (before.drop (3 * r) ++ g :: ([] ++ h :: rest)) := by
    rw [List.nil_append, ← List.append_assoc, List.take_append_drop]
  refine ⟨?_, ?_, keypad_at_ne_zero r c hr hc, ?_⟩
  · rw [e]
    exact hd.1
  · rw [e]
    exact hd.2
  · intro samples
    constructor
    · intro hz
      have hz2 := rows_returned_zero 4 0 samples (by decide) hz
      exact ⟨hz2.1, fun i v hi hv => hz2.2 i v hi hv⟩
    · intro hs
      have hl : (samples.take 12).length = 3 * 4 := by
        rw [List.length_take]
        omega
      have ht : ∀ i v, (samples.take 12)[i]? = some v → v &&& colMask (i % 3) ≠ 0 := by
        intro i v hv
        rw [List.getElem?_take] at hv
        split at hv
        · rename_i hi
          exact hs.2 i v hi hv
        · cases hv
      have hk := rows_skip_tested 4 0 0 (samples.take 12) (samples.drop 12) hl ht
      rw [List.take_append_drop] at hk
      unfold Read_Keypad
      have hk1 := hk.1
      simp only [Nat.add_zero, Nat.zero_add] at hk1
      rw [hk1]
      simp [Read_Keypad_rows]

/-- C11 witness: row 1, column 2 (the key 6); the five earlier samples read high
only on the column each is tested against. -/
theorem C11_glitch_returns_key_witness :
    (Read_Keypad ([COL1, COL2, COL3, COL1, COL2] ++
        (COL1 ||| COL2) :: (COL1 ||| COL2 ||| COL3) :: [])).status
      = ScanStatus.returned 54 :=
  (C11_glitch_returns_key 1 2 (by decide) (by decide)
    [COL1, COL2, COL3, COL1, COL2] (COL1 ||| COL2) (COL1 ||| COL2 ||| COL3) []
    (by decide) (by
      intro i v hv
      match i, hv with
      | 0, hv => cases hv; decide
      | 1, hv => cases hv; decide
      | 2, hv => cases hv; decide
      | 3, hv => cases hv; decide
      | 4, hv => cases hv; decide
      | j + 5, hv => simp at hv) (by decide) (by decide)).1

end ESDLab
